import Mathlib

/-!
# Verification of the DADI Web dispatch engine and data-orchestration pipeline

Shallow embedding of the router (`dadi/lib/api`), the controller request
pipeline (`dadi/lib/controller`), the datasource parameter resolution
(`dadi/lib/datasource`), the datasource cache (`dadi/lib/cache/datasource`)
and the event runner (`dadi/lib/event`) of the `@dadi/web` repository,
together with theorems settling the specification claims about them.

JavaScript values flowing through the pipeline (filters, query maps, working
data sets, provider results) are modelled by an explicit `Json` inductive.
JavaScript's `undefined` is modelled, where it can occur, as `Option.none`
around `Json`.  Numeric literals are modelled as integers (no claim concerns
fractional numbers).  Asynchronous callbacks are modelled synchronously in
program order, which matches the source's sequencing guarantees (the bounded
queue has width 1, `_.each` loops are synchronous, and provider callbacks
fire after the registration loop).
-/

namespace DadiWeb

/-- JavaScript/JSON value, as used for filters, query maps and working data.
`obj` keeps insertion order of fields, like a JS object literal. -/
inductive Json where
  | null
  | bool (b : Bool)
  | num (n : Int)
  | str (s : String)
  | arr (elems : List Json)
  | obj (fields : List (String × Json))

/-- JS truthiness of a defined value: `null`, `false`, `0` and `""` are falsy;
objects and arrays are always truthy. -/
def jsTruthy : Json → Bool
  | .null => false
  | .bool b => b
  | .num n => n != 0
  | .str s => s ≠ ""
  | .arr _ => true
  | .obj _ => true

/-- JS truthiness of a possibly-`undefined` value (`none` = `undefined`). -/
def jsTruthyOpt : Option Json → Bool
  | none => false
  | some v => jsTruthy v

/-- First binding of `k` in an association list (JS object property lookup). -/
def jsLookup (fields : List (String × Json)) (k : String) : Option Json :=
  (fields.find? (fun p => p.1 = k)).map (·.2)

/-- Numeric value of a decimal digit character. -/
def digitVal (c : Char) : Nat :=
  c.toNat - 48

/-- Canonical decimal parse of a property key (array/string indexing). -/
def charsToNat? (cs : List Char) : Option Nat :=
  if cs ≠ [] ∧ cs.all (·.isDigit) then
    some (cs.foldl (fun n c => 10 * n + digitVal c) 0)
  else none

/-- Property read `o[k]`: object fields by name, array elements by
canonical numeric index (plus `length`), string characters by index (plus
`length`); anything else is `undefined`.  (Non-canonical numeric strings
such as `"00"` are outside the model; no data under test uses them.) -/
def jsGetField : Json → String → Option Json
  | .obj fields, k => jsLookup fields k
  | .arr xs, k =>
    if k = "length" then some (.num xs.length)
    else match charsToNat? k.toList with
      | some i => xs.get? i
      | none => none
  | .str s, k =>
    if k = "length" then some (.num s.length)
    else match charsToNat? k.toList with
      | some i => (s.toList.get? i).map (fun c => .str (String.singleton c))
      | none => none
  | _, _ => none

/-- Property write on an association list: overwrite in place if the key is
present (keeping its position, as JS assignment does), else append. -/
def jsSetPair (fields : List (String × Json)) (k : String) (v : Json) :
    List (String × Json) :=
  if fields.any (fun p => p.1 = k) then
    fields.map (fun p => if p.1 = k then (k, v) else p)
  else fields ++ [(k, v)]

/-- Property write `o[k] = v`.  On a non-object the assignment is a silent
no-op (non-strict JS semantics for primitives). -/
def jsSetField : Json → String → Json → Json
  | .obj fields, k, v => .obj (jsSetPair fields k v)
  | o, _, _ => o

/-- Property delete `delete o[k]`. -/
def jsDeleteField : Json → String → Json
  | .obj fields, k => .obj (fields.filter (fun p => p.1 ≠ k))
  | o, _ => o

/-- `o.hasOwnProperty(k)` for the values that occur in the working data set.
Only object values carry own properties in this model. -/
def jsHasOwn : Json → String → Bool
  | .obj fields, k => fields.any (fun p => p.1 = k)
  | _, _ => false

/-- `v.length` as a JS read: arrays and strings have a numeric `length`;
an object can carry a literal `length` property; other values give
`undefined`. -/
def jsLengthVal : Json → Option Json
  | .arr xs => some (.num xs.length)
  | .str s => some (.num s.length)
  | .obj fields => jsLookup fields "length"
  | _ => none

/-- `x !== 0` where `x` is the result of a `.length` read: a numeric length
passes when non-zero, and any non-number (an `undefined` length included)
is strictly unequal to `0`, so the test passes. -/
def jsLengthNotZero : Option Json → Bool
  | some (.num n) => n != 0
  | _ => true

/-- `_.extend(target, source)` on two JS objects: every own field of `source`
is written onto `target` in order (underscore's shallow extend).  On
non-objects the target is returned unchanged. -/
def jsExtend : Json → Json → Json
  | .obj tgt, .obj src => .obj (src.foldl (fun acc p => jsSetPair acc p.1 p.2) tgt)
  | tgt, _ => tgt

mutual

/-- `String(v)` coercion for a defined value, as used by
`encodeURIComponent` and `parseInt` on non-string inputs. -/
def jsToString : Json → String
  | .null => "null"
  | .bool b => if b then "true" else "false"
  | .num n => toString n
  | .str s => s
  | .arr xs => jsArrJoin xs
  | .obj _ => "[object Object]"

/-- `Array.prototype.toString`: elements joined by commas, with `null`
elements stringifying to the empty string. -/
def jsArrJoin : List Json → String
  | [] => ""
  | [.null] => ""
  | [x] => jsToString x
  | .null :: y :: rest => "," ++ jsArrJoin (y :: rest)
  | x :: y :: rest => jsToString x ++ "," ++ jsArrJoin (y :: rest)

end

/-- `String(v)` coercion of a possibly-`undefined` value. -/
def jsToStringOpt : Option Json → String
  | none => "undefined"
  | some v => jsToString v

/-! ## String utilities mirroring the JavaScript string operations used -/

/-- Helper for `String.prototype.indexOf`: first index at or after `i` where
`sub` occurs in `hay`, `-1` if none. -/
def charsIndexOf : List Char → List Char → Nat → Int
  | hay, sub, i =>
    if sub.isPrefixOf hay then (i : Int)
    else match hay with
      | [] => -1
      | _ :: t => charsIndexOf t sub (i + 1)

/-- `s.indexOf(sub)` (character indices; the sources only index ASCII). -/
def jsIndexOf (s sub : String) : Int :=
  charsIndexOf s.toList sub.toList 0

/-- `String.prototype.replace` with a plain-string pattern: replaces the
first occurrence only. -/
def charsReplaceFirst (hay target repl : List Char) : List Char :=
  if target.isPrefixOf hay then repl ++ hay.drop target.length
  else match hay with
    | [] => []
    | c :: t => c :: charsReplaceFirst t target repl

/-- `s.replace(target, repl)` replacing the first occurrence. -/
def jsReplaceFirst (s target repl : String) : String :=
  ⟨charsReplaceFirst s.toList target.toList repl.toList⟩

/-- Fuel-bounded global replacement (`s.replace(/target/g, repl)` for the
plain patterns this code builds); a step always consumes input, so a fuel
of the input length suffices. -/
def charsReplaceAllAux (target repl : List Char) : Nat → List Char → List Char
  | 0, cs => cs
  | fuel + 1, cs =>
    if target ≠ [] ∧ target.isPrefixOf cs then
      repl ++ charsReplaceAllAux target repl fuel (cs.drop target.length)
    else
      match cs with
      | [] => []
      | c :: t => c :: charsReplaceAllAux target repl fuel t

/-- Replace every occurrence of `target` in `s`. -/
def jsReplaceAll (s target repl : String) : String :=
  ⟨charsReplaceAllAux target.toList repl.toList (s.length + 1) s.toList⟩

/-- Split on a separator character, as `String.prototype.split` does for
the single-character separators this code uses (`'/'`, `'&'`, `'.'`). -/
def splitOnCharAux (sep : Char) : List Char → List Char → List String
  | [], acc => [⟨acc.reverse⟩]
  | c :: t, acc =>
    if c = sep then ⟨acc.reverse⟩ :: splitOnCharAux sep t []
    else splitOnCharAux sep t (c :: acc)

/-- `s.split(sep)` for a single-character separator. -/
def splitOnChar (sep : Char) (s : String) : List String :=
  splitOnCharAux sep s.toList []

/-- The characters after the first occurrence of `sep`, if any. -/
def afterFirstChar (sep : Char) : List Char → Option (List Char)
  | [] => none
  | c :: t => if c = sep then some t else afterFirstChar sep t

/-- Split at the first occurrence of `sep`: the prefix, and the suffix when
the separator occurs. -/
def splitAtFirstChar (sep : Char) : List Char → List Char × Option (List Char)
  | [] => ([], none)
  | c :: t =>
    if c = sep then ([], some t)
    else
      let r := splitAtFirstChar sep t
      (c :: r.1, r.2)

/-- Query-string extraction as performed by `url.parse(u, true).query` for
the URLs this code builds: the text after the first `?`, split on `&`, each
pair split at the first `=` (a key with no `=` maps to the empty string).
Percent-decoding is not modelled; the endpoints and requests under test
contain no escapes. -/
def parseQueryPairs (u : String) : List (String × String) :=
  match afterFirstChar '?' u.toList with
  | none => []
  | some q =>
    (splitOnCharAux '&' q []).filterMap (fun kv =>
      if kv = "" then none
      else
        match splitAtFirstChar '=' kv.toList with
        | (k, none) => some ((⟨k⟩ : String), "")
        | (k, some v) => some ((⟨k⟩ : String), (⟨v⟩ : String)))

/-- Characters `encodeURIComponent` leaves unescaped (the apostrophe,
code 39, among them). -/
def isUnreservedURIChar (c : Char) : Bool :=
  c.isAlphanum || c = '-' || c = '_' || c = '.' || c = '!' || c = '~' ||
    c = '*' || c = Char.ofNat 39 || c = '(' || c = ')'

/-- Upper-case hexadecimal digit for a value below 16. -/
def hexDigitChar (n : Nat) : Char :=
  if n < 10 then Char.ofNat ('0'.toNat + n) else Char.ofNat ('A'.toNat + n - 10)

/-- Percent-encoding of one character (single-byte characters; the values
this code escapes are ASCII). -/
def percentEncodeChar (c : Char) : List Char :=
  if isUnreservedURIChar c then [c]
  else if c.toNat < 256 then
    ['%', hexDigitChar (c.toNat / 16 % 16), hexDigitChar (c.toNat % 16)]
  else [c]

/-- `encodeURIComponent(s)`. -/
def encodeURIComponent (s : String) : String :=
  ⟨(s.toList.map percentEncodeChar).flatten⟩

/-- `parseInt(s)`: skip leading whitespace, optional sign, then the longest
leading run of decimal digits; `none` models `NaN`. -/
def parseIntJs (s : String) : Option Int :=
  let cs := s.toList.dropWhile (·.isWhitespace)
  let signAndRest : Int × List Char :=
    match cs with
    | '-' :: t => (-1, t)
    | '+' :: t => (1, t)
    | _ => (1, cs)
  let digits := signAndRest.2.takeWhile (·.isDigit)
  if digits.isEmpty then none
  else some (signAndRest.1 *
    (digits.foldl (fun acc c => 10 * acc + (digitVal c : Int)) 0))

/-- `Number(s)` for a string: empty/whitespace gives `0`, a full integer
literal gives its value, anything else is `NaN` (`none`).  Fractional
literals are outside the model (none of the routes under test use them). -/
def numberJs (s : String) : Option Int :=
  let t := ((s.toList.dropWhile (·.isWhitespace)).reverse.dropWhile (·.isWhitespace)).reverse
  if t = [] then some 0
  else
    let signAndRest : Int × List Char :=
      match t with
      | '-' :: r => (-1, r)
      | '+' :: r => (1, r)
      | cs => (1, cs)
    if signAndRest.2 ≠ [] ∧ signAndRest.2.all (·.isDigit) then
      some (signAndRest.1 *
        (signAndRest.2.foldl (fun acc c => 10 * acc + (digitVal c : Int)) 0))
    else none

/-! ## `JSON.stringify` and `JSON.parse` -/

/-- JSON escape of one character inside a string literal. -/
def jsonEscapeChar (c : Char) : String :=
  if c = '"' then "\\\""
  else if c = '\\' then "\\\\"
  else if c = '\n' then "\\n"
  else if c = '\r' then "\\r"
  else if c = '\t' then "\\t"
  else if c = '\x08' then "\\b"
  else if c = '\x0c' then "\\f"
  else String.singleton c

/-- JSON string literal for `s`. -/
def jsonQuote (s : String) : String :=
  "\"" ++ String.join (s.toList.map jsonEscapeChar) ++ "\""

mutual

/-- `JSON.stringify` (no indentation, insertion-ordered keys). -/
def jsonStringify : Json → String
  | .null => "null"
  | .bool b => if b then "true" else "false"
  | .num n => toString n
  | .str s => jsonQuote s
  | .arr xs => "[" ++ jsonStringifyElems xs ++ "]"
  | .obj fs => "\x7b" ++ jsonStringifyFields fs ++ "\x7d"

/-- Comma-joined serializations of array elements. -/
def jsonStringifyElems : List Json → String
  | [] => ""
  | [x] => jsonStringify x
  | x :: y :: rest => jsonStringify x ++ "," ++ jsonStringifyElems (y :: rest)

/-- Comma-joined serializations of object fields. -/
def jsonStringifyFields : List (String × Json) → String
  | [] => ""
  | [(k, v)] => jsonQuote k ++ ":" ++ jsonStringify v
  | (k, v) :: p :: rest =>
      jsonQuote k ++ ":" ++ jsonStringify v ++ "," ++ jsonStringifyFields (p :: rest)

end

/-- JSON whitespace. -/
def isJsonWs (c : Char) : Bool :=
  c = ' ' || c = '\n' || c = '\t' || c = '\r'

/-- Decode the character following a backslash inside a JSON string
literal; control escapes map to their code points, the self-escaping
characters to themselves, anything else is invalid. -/
def jsonUnescapeChar (e : Char) : Option Char :=
  if e = 'n' then some (Char.ofNat 10)
  else if e = 't' then some (Char.ofNat 9)
  else if e = 'r' then some (Char.ofNat 13)
  else if e = 'b' then some (Char.ofNat 8)
  else if e = 'f' then some (Char.ofNat 12)
  else if e = '"' || e = '\\' || e = '/' then some e
  else none

/-- Body of a JSON string literal after the opening quote; returns the
decoded string and the remainder after the closing quote. -/
def parseJsonStringBody : List Char → List Char → Option (String × List Char)
  | [], _ => none
  | '"' :: rest, acc => some (⟨acc.reverse⟩, rest)
  | '\\' :: e :: rest, acc =>
    (jsonUnescapeChar e).bind (fun c => parseJsonStringBody rest (c :: acc))
  | '\\' :: [], _ => none
  | c :: rest, acc => parseJsonStringBody rest (c :: acc)

mutual

/-- One JSON value; fuel bounds the recursion depth (a fuel of the input
length always suffices).  Fractional and exponent literals are outside the
model (none occur in the data under test). -/
def parseJsonVal (fuel : Nat) (cs : List Char) : Option (Json × List Char) :=
  match fuel with
  | 0 => none
  | fuel + 1 =>
    match cs.dropWhile isJsonWs with
    | 'n' :: 'u' :: 'l' :: 'l' :: rest => some (.null, rest)
    | 't' :: 'r' :: 'u' :: 'e' :: rest => some (.bool true, rest)
    | 'f' :: 'a' :: 'l' :: 's' :: 'e' :: rest => some (.bool false, rest)
    | '"' :: rest => (parseJsonStringBody rest []).map (fun p => (.str p.1, p.2))
    | '[' :: rest => (parseJsonElems fuel (rest.dropWhile isJsonWs) true).map
        (fun p => (.arr p.1, p.2))
    | '\x7b' :: rest => (parseJsonMembers fuel (rest.dropWhile isJsonWs) true).map
        (fun p => (.obj p.1, p.2))
    | '-' :: rest =>
      let digits := rest.takeWhile (·.isDigit)
      if digits.isEmpty then none
      else some (.num (-(digits.foldl (fun acc c => 10 * acc + (digitVal c : Int)) 0)),
        rest.drop digits.length)
    | c :: rest =>
      if c.isDigit then
        let digits := (c :: rest).takeWhile (·.isDigit)
        some (.num (digits.foldl (fun acc c => 10 * acc + (digitVal c : Int)) 0),
          (c :: rest).drop digits.length)
      else none
    | [] => none

/-- Array elements after `[`; `first` records whether no element has been
consumed yet (so `]` may close immediately). -/
def parseJsonElems (fuel : Nat) (cs : List Char) (first : Bool) :
    Option (List Json × List Char) :=
  match fuel with
  | 0 => none
  | fuel + 1 =>
    match cs with
    | ']' :: rest => if first then some ([], rest) else none
    | _ =>
      (parseJsonVal fuel cs).bind (fun (v, rest) =>
        match rest.dropWhile isJsonWs with
        | ',' :: rest2 => (parseJsonElems fuel (rest2.dropWhile isJsonWs) false).bind
            (fun p => if p.1.isEmpty then none else some (v :: p.1, p.2))
        | ']' :: rest2 => some ([v], rest2)
        | _ => none)

/-- Object members after the opening brace. -/
def parseJsonMembers (fuel : Nat) (cs : List Char) (first : Bool) :
    Option (List (String × Json) × List Char) :=
  match fuel with
  | 0 => none
  | fuel + 1 =>
    match cs with
    | '\x7d' :: rest => if first then some ([], rest) else none
    | '"' :: rest =>
      (parseJsonStringBody rest []).bind (fun (k, rest2) =>
        match rest2.dropWhile isJsonWs with
        | ':' :: rest3 =>
          (parseJsonVal fuel rest3).bind (fun (v, rest4) =>
            match rest4.dropWhile isJsonWs with
            | ',' :: rest5 => (parseJsonMembers fuel (rest5.dropWhile isJsonWs) false).bind
                (fun p => if p.1.isEmpty then none else some ((k, v) :: p.1, p.2))
            | '\x7d' :: rest5 => some ([(k, v)], rest5)
            | _ => none)
        | _ => none)
    | _ => none

end

/-- `JSON.parse(s)`: `none` models the thrown `SyntaxError`. -/
def jsonParse (s : String) : Option Json :=
  (parseJsonVal (s.length + 1) s.toList).bind (fun (v, rest) =>
    if rest.dropWhile isJsonWs = [] then some v else none)

/-! ## Router (`dadi/lib/api/index.js`)

Route patterns use the segment grammar of this application: `/`-separated
segments that are either static text or `:name` / `:name?` parameters.
`pathToRegexp.parse` turns such a pattern into tokens where maximal runs of
static segments merge into one string token, so `tokens[0]` is a string
exactly when the pattern starts with a static segment, and
`_.compact(tokens[0].split('/')).length` counts the *leading* static
segments.  `regex.keys` lists the parameters with their `optional` flags. -/

/-- A segment of a route pattern. -/
inductive PathSeg where
  | lit (s : String)
  | param (name : String) (optional : Bool)
deriving DecidableEq, Repr

/-- Classify one path segment (`:name` required, `:name?` optional,
anything else static). -/
def parsePathSeg (s : String) : PathSeg :=
  match s.toList with
  | ':' :: rest =>
    if rest ≠ [] ∧ rest.getLast? = some '?' then .param ⟨rest.dropLast⟩ true
    else .param ⟨rest⟩ false
  | _ => .lit s

/-- Non-empty segments of a pattern (`_.compact(path.split('/'))`). -/
def pathSegments (path : String) : List PathSeg :=
  ((splitOnChar '/' path).filter (· ≠ "")).map parsePathSeg

/-- Is a segment static? -/
def isStaticSeg : PathSeg → Bool
  | .lit _ => true
  | .param _ _ => false

/-- `staticRouteLength`: number of segments in the leading static token
(0 when the pattern starts with a parameter, `tokens[0]` then not being a
string). -/
def staticRouteLength (segs : List PathSeg) : Nat :=
  (segs.takeWhile isStaticSeg).length

/-- `regex.keys` entries with `optional` false. -/
def requiredParamLength (segs : List PathSeg) : Nat :=
  segs.countP (fun sg => match sg with | .param _ false => true | _ => false)

/-- `regex.keys` entries with `optional` true. -/
def optionalParamLength (segs : List PathSeg) : Nat :=
  segs.countP (fun sg => match sg with | .param _ true => true | _ => false)

/-- The priority score computed by `Api.prototype.use`:
`staticRouteLength*5 + requiredParamLength*2 + optionalParamLength`, forced
to `-10` when `path.indexOf('/config') > 0` (strictly positive index: a
pattern *starting* with `/config` keeps its computed score). -/
def routeOrder (path : String) : Int :=
  let segs := pathSegments path
  let order : Int := (staticRouteLength segs * 5 : Nat) +
    (requiredParamLength segs * 2 : Nat) + (optionalParamLength segs : Nat)
  if jsIndexOf path "/config" > 0 then -10 else order

/-- One entry of `this.paths`; handlers are identified by a `Nat` (each
registration passes a distinct controller object). -/
structure RouteEntry where
  path : String
  order : Int
  handler : Nat
deriving DecidableEq, Repr

/-- Error-chain entries: the default handler closure pushed by the `Api`
constructor (whose reference never escapes the module, so `unuse` cannot
name it), or a user-registered 4-ary function identified by id. -/
inductive ErrHandler where
  | defaultHandler
  | user (id : Nat)
deriving DecidableEq, Repr

/-- The mutable registries owned by an `Api` instance. -/
structure ApiState where
  paths : List RouteEntry
  all : List Nat
  errors : List ErrHandler
deriving DecidableEq, Repr

/-- The `Api` constructor: empty routes and middleware, and the default
error handler already pushed, so the error chain exists from construction. -/
def apiInit : ApiState :=
  { paths := [], all := [], errors := [.defaultHandler] }

/-- Stable insertion of a route after every entry of greater or equal
order. -/
def insertByOrder (e : RouteEntry) : List RouteEntry → List RouteEntry
  | [] => [e]
  | x :: xs => if x.order ≥ e.order then x :: insertByOrder e xs else e :: x :: xs

/-- `this.paths.sort((a, b) => b.order - a.order)`: stable descending sort
by `order` (`Array.prototype.sort` is stable), as an insertion sort. -/
def sortByOrderDesc (l : List RouteEntry) : List RouteEntry :=
  l.foldl (fun acc x => insertByOrder x acc) []

/-- Argument to `use`/`unuse`: a bare function (middleware when 3-ary,
error handler when 4-ary) or a path plus handler. -/
inductive UseArg where
  | fn (arity : Nat) (id : Nat)
  | route (path : String) (handler : Nat)
deriving DecidableEq, Repr

/-- `Api.prototype.use`. -/
def apiUse (s : ApiState) : UseArg → ApiState
  | .fn arity id =>
    if arity = 4 then { s with errors := s.errors ++ [.user id] }
    else { s with all := s.all ++ [id] }
  | .route path handler =>
    { s with paths :=
        sortByOrderDesc (s.paths ++ [⟨path, routeOrder path, handler⟩]) }

/-- `indexOf` + `splice(indx, 1)`: remove the first occurrence of `a`. -/
def removeFirstEq [DecidableEq α] (a : α) : List α → List α
  | [] => []
  | x :: xs => if x = a then xs else x :: removeFirstEq a xs

/-- `_.findWhere(paths, \x7b path \x7d)` + `_.without`: remove the first
entry with the given path (every registration pushes a fresh object, so the
found reference occurs exactly once and `_.without` removes just it); when
no entry matches, `_.without(paths, undefined)` removes nothing. -/
def removeFirstByPath (p : String) : List RouteEntry → List RouteEntry
  | [] => []
  | x :: xs => if x.path = p then xs else x :: removeFirstByPath p xs

/-- `Api.prototype.unuse`.  For a routed entry only the path is consulted;
the handler of a `.route` argument is ignored by the source. -/
def apiUnuse (s : ApiState) : UseArg → ApiState
  | .fn arity id =>
    if arity = 4 then { s with errors := removeFirstEq (.user id) s.errors }
    else { s with all := removeFirstEq id s.all }
  | .route path _ => { s with paths := removeFirstByPath path s.paths }

/-- A registration-interface operation. -/
inductive ApiOp where
  | useOp (arg : UseArg)
  | unuseOp (arg : UseArg)
deriving DecidableEq, Repr

/-- Apply a sequence of `use`/`unuse` operations. -/
def applyApiOps (s : ApiState) : List ApiOp → ApiState
  | [] => s
  | .useOp a :: ops => applyApiOps (apiUse s a) ops
  | .unuseOp a :: ops => applyApiOps (apiUnuse s a) ops

/-- An error value travelling down the continuation chain.  `statusCode`
and `json` may be absent; a present `statusCode` of `0` is falsy. -/
structure JsError where
  statusCode : Option Int
  json : Option Json
  message : String

/-- Observable state of the `http.ServerResponse` as the default handler
manipulates it. -/
structure HttpResponse where
  statusCode : Int
  headers : List (String × String)
  body : Option String
  ended : Bool

/-- The handler installed by `defaultError()`: status from
`err.statusCode || 500`; when the error carries a `json` payload the
response ends with its serialization and JSON headers, otherwise it ends
with an empty body. -/
def defaultErrorHandler (err : JsError) (res : HttpResponse) : HttpResponse :=
  let res := { res with statusCode :=
    match err.statusCode with
    | some n => if n ≠ 0 then n else 500
    | none => 500 }
  match err.json with
  | some j =>
    let resBody := jsonStringify j
    { res with
        headers := res.headers ++
          [("content-type", "application/json"),
           ("content-length", toString resBody.utf8ByteSize)],
        body := some resBody,
        ended := true }
  | none => { res with body := none, ended := true }

/-! ## Datasource (`dadi/lib/datasource/index.js`) -/

/-- Lookup in a flat string map (route params, parsed query). -/
def lookupStr (m : List (String × String)) (k : String) : Option String :=
  (m.find? (fun p => p.1 = k)).map (·.2)

/-- A string value filtered through JS truthiness: present-but-empty is
falsy. -/
def truthyStr : Option String → Option String
  | some s => if s = "" then none else some s
  | none => none

/-- Truthiness of an optional string property (`obj.target`, `obj.field`). -/
def truthyStrOpt (o : Option String) : Bool :=
  (truthyStr o).isSome

/-- Remove a key from a flat string map (`delete query.id`). -/
def removeStrKey (m : List (String × String)) (k : String) : List (String × String) :=
  m.filter (fun p => p.1 ≠ k)

/-- One entry of `schema.datasource.requestParams`. -/
structure ReqParamCfg where
  param : String
  queryParam : Option String
  fieldName : Option String
  target : Option String
  castType : Option String
deriving DecidableEq, Repr

/-- The slice of `schema.datasource` read and written by request
processing.  `paginate` is its truthiness; `page`, `cache` and
`filterEventResult` may be absent. -/
structure SchemaDs where
  key : String
  sourceType : String
  sourceEndpoint : String
  filter : Json
  cache : Option Json
  paginate : Bool
  page : Option Json
  filterEventResult : Option Json

/-- The shared per-datasource template: the schema's `datasource` object,
the pristine `originalFilter` cloned from it at init (`_.clone` gives a
distinct top-level object), the `requestParams` config objects, and the
`this.source` / `this.requestHeaders` slots that `processRequest`
assigns. -/
structure DsState where
  schemaDatasource : SchemaDs
  originalFilter : Json
  requestParams : List ReqParamCfg
  sourceModifiedEndpoint : Option String
  requestHeaders : Option (List (String × String))

/-- Page metadata consulted during request processing. -/
structure PageCfg where
  name : Option String
  passFilters : Bool
  passHeaders : Bool
  requiredDatasources : List String

/-- An incoming request: its URL, the query map produced by
`url.parse(req.url, true).query` (the `url` module is an external
collaborator; `JSON.parse(JSON.stringify(query))` on this flat string map
is the identity), the route params populated by the router, and the
headers. -/
structure Req where
  url : String
  query : List (String × String)
  params : List (String × String)
  headers : List (String × String)

/-- First index of the closing `\x7d"` of a placeholder, if any. -/
def findPlaceholderClose (cs : List Char) : Option Nat :=
  match charsIndexOf cs ['\x7d', '"'] 0 with
  | .ofNat i => some i
  | .negSucc _ => none

/-- `JSON.stringify(filter).replace(paramRule, fn)`: every occurrence of
`"\x7bparams.NAME\x7d"` (the regex match includes the surrounding quotes) is
replaced by the *raw* route-parameter value when that value is truthy, and
kept verbatim otherwise; scanning continues after the match (`g` flag). -/
def replaceParamsAux (params : List (String × String)) : Nat → List Char → List Char
  | 0, cs => cs
  | fuel + 1, cs =>
    let pat : List Char := ['"', '\x7b', 'p', 'a', 'r', 'a', 'm', 's', '.']
    if pat.isPrefixOf cs then
      let rest := cs.drop 9
      match findPlaceholderClose rest with
      | some i =>
        let name : String := ⟨rest.take i⟩
        let after := rest.drop (i + 2)
        match truthyStr (lookupStr params name) with
        | some v => v.toList ++ replaceParamsAux params fuel after
        | none => cs.take (9 + i + 2) ++ replaceParamsAux params fuel after
      | none =>
        match cs with
        | [] => []
        | c :: t => c :: replaceParamsAux params fuel t
    else
      match cs with
      | [] => []
      | c :: t => c :: replaceParamsAux params fuel t

/-- The placeholder-substitution pass over a serialized filter. -/
def replaceParams (params : List (String × String)) (s : String) : String :=
  ⟨replaceParamsAux params (s.length + 1) s.toList⟩

/-- `Number(paramValue)` cast of a request-parameter value, as a JSON
filter value.  `NaN` is modelled as `null` (it serializes identically and
nothing downstream distinguishes them). -/
def castParamValue (castType : Option String) (v : String) : Json :=
  if castType = some "Number" then
    match numberJs v with
    | some n => .num n
    | none => .null
  else .str (encodeURIComponent v)

/-- The key JS uses for `filter[obj.field]` when `obj.field` is undefined
(property access coerces the key to the string `"undefined"`). -/
def fieldKey (o : Option String) : String :=
  match o with
  | some f => f
  | none => "undefined"

/-- Intermediate state of the `requestParams.forEach` loop. -/
structure ReqParamsLoopState where
  filter : Json
  endpoint : String
  cfgs : List ReqParamCfg

/-- One iteration of the `requestParams.forEach` loop: default the target
to `filter` (writing it back onto the shared config object), then either
inject the cast parameter value into the filter or endpoint, or delete a
stale filter field when the parameter is absent from the request. -/
def applyRequestParam (req : Req) (st : ReqParamsLoopState) (obj : ReqParamCfg) :
    ReqParamsLoopState :=
  let obj := if truthyStrOpt obj.target then obj else { obj with target := some "filter" }
  let tgt := fieldKey obj.target
  let paramValue := truthyStr (lookupStr req.params obj.param)
  match paramValue with
  | some v =>
    if truthyStrOpt obj.fieldName then
      let pv := castParamValue obj.castType v
      if tgt = "filter" then
        { st with filter := jsSetField st.filter (fieldKey obj.fieldName) pv,
                  cfgs := st.cfgs ++ [obj] }
      else if tgt = "endpoint" then
        let newEndpoint :=
          jsReplaceAll st.endpoint ("\x7b" ++ fieldKey obj.fieldName ++ "\x7d") (jsToString pv)
        { st with endpoint := newEndpoint, cfgs := st.cfgs ++ [obj] }
      else { st with cfgs := st.cfgs ++ [obj] }
    else
      if tgt = "filter" ∧ jsTruthyOpt (jsGetField st.filter (fieldKey obj.fieldName)) then
        { st with filter := jsDeleteField st.filter (fieldKey obj.fieldName),
                  cfgs := st.cfgs ++ [obj] }
      else { st with cfgs := st.cfgs ++ [obj] }
  | none =>
    if tgt = "filter" ∧ jsTruthyOpt (jsGetField st.filter (fieldKey obj.fieldName)) then
      { st with filter := jsDeleteField st.filter (fieldKey obj.fieldName),
                cfgs := st.cfgs ++ [obj] }
    else { st with cfgs := st.cfgs ++ [obj] }

/-- Result of `Datasource.prototype.processRequest`: the template state
after the call (mutations up to a thrown `SyntaxError` persist) and the
per-request `datasourceParams` handed to the provider, or the thrown
exception. -/
structure ProcessRequestOutcome where
  ds : DsState
  params : Except String SchemaDs

/-- `Datasource.prototype.processRequest`.

`datasourceParams` starts as `_.clone(this.schema.datasource)` — a shallow
copy — and its `filter` property is then assigned `this.originalFilter`,
an *alias* of the shared pristine filter.  `_.extend` on the query-string
filter therefore writes through the alias into `this.originalFilter`; the
`JSON.parse(JSON.stringify(...))` placeholder pass afterwards produces a
fresh object, so the later `requestParams` writes touch only the clone.
The model threads the shared template explicitly to capture this. -/
def processRequest (ds : DsState) (page : PageCfg) (datasource : String) (req : Req) :
    ProcessRequestOutcome :=
  let dsParams := ds.schemaDatasource
  let filterShared := if jsTruthy ds.originalFilter then ds.originalFilter else Json.obj []
  let query := req.query
  let dsParams :=
    if lookupStr query "cache" = some "false" then { dsParams with cache := some (.bool false) }
    else { dsParams with cache := none }
  let requestHeaders := if page.passHeaders then some req.headers else ds.requestHeaders
  let nameMatches : Bool :=
    match page.name with
    | some n => n ≠ "" && jsIndexOf datasource n ≥ 0
    | none => false
  let cond := nameMatches || page.passFilters
  let requestParamsPage :=
    ds.requestParams.find? (fun o => o.queryParam = some "page" && o.param ≠ "")
  let dsParams :=
    if cond && dsParams.paginate then
      let pageVal : Json :=
        match truthyStr (lookupStr query "page") with
        | some v => .str v
        | none =>
          -- `req.params[requestParamsPage]` indexes the params map with the
          -- found config *object*, which JS coerces to "[object Object]"
          match (match requestParamsPage with
                 | some _ => truthyStr (lookupStr req.params "[object Object]")
                 | none => none) with
          | some v => .str v
          | none =>
            match truthyStr (lookupStr req.params "page") with
            | some v => .str v
            | none => .num 1
      { dsParams with page := some pageVal }
    else dsParams
  let query :=
    if cond &&
        ((truthyStr (lookupStr req.params "id")).isSome ||
         (truthyStr (lookupStr query "id")).isSome) then
      removeStrKey query "id"
    else query
  let filterQueryValue := if cond then lookupStr query "filter" else none
  match filterQueryValue with
  | some fstr =>
    match jsonParse fstr with
    | none =>
      -- JSON.parse throws before `_.extend` runs: the template is intact
      { ds := { ds with requestHeaders := requestHeaders },
        params := .error "SyntaxError: invalid filter JSON in query string" }
    | some parsed =>
      let filterShared := jsExtend filterShared parsed
      let originalFilterAfter := if jsTruthy ds.originalFilter then filterShared else ds.originalFilter
      processRequestRest ds dsParams page req filterShared originalFilterAfter requestHeaders
  | none =>
    processRequestRest ds dsParams page req filterShared ds.originalFilter requestHeaders

where
  /-- The placeholder pass and everything after it. -/
  processRequestRest (ds : DsState) (dsParams : SchemaDs) (_page : PageCfg) (req : Req)
      (filterCur : Json) (originalFilterAfter : Json)
      (requestHeaders : Option (List (String × String))) : ProcessRequestOutcome :=
    match jsonParse (replaceParams req.params (jsonStringify filterCur)) with
    | none =>
      -- the raw placeholder substitution produced invalid JSON; the
      -- `_.extend` mutation above has already happened
      { ds := { ds with originalFilter := originalFilterAfter,
                        requestHeaders := requestHeaders },
        params := .error "SyntaxError: invalid filter JSON after param substitution" }
    | some filterIndep =>
      let loop := ds.requestParams.foldl (applyRequestParam req)
        { filter := filterIndep, endpoint := ds.schemaDatasource.sourceEndpoint, cfgs := [] }
      let filterFinal :=
        match ds.schemaDatasource.filterEventResult with
        | some fe => if jsTruthy fe then jsExtend loop.filter fe else loop.filter
        | none => loop.filter
      { ds := { ds with
                  originalFilter := originalFilterAfter,
                  requestHeaders := requestHeaders,
                  sourceModifiedEndpoint := some loop.endpoint,
                  requestParams := loop.cfgs },
        params := .ok { dsParams with filter := filterFinal } }

/-! ## Event (`dadi/lib/event/index.js`) -/

/-- What one event invocation does.  Loading the module or running the
handler body may throw synchronously; otherwise the handler invokes its
callback with `(err, result)`.  A result is either the very data object the
handler received (`sameData`, which round-trips the sentinel by identity)
or a fresh value. -/
inductive EventResult where
  | sameData
  | fresh (j : Json)

/-- Behaviour of one event invocation. -/
inductive EventBehavior where
  | throws (msg : String)
  | calls (err : Option JsError) (result : Option EventResult)

/-- What `Event.prototype.run` hands to its callback, plus whether it wrote
to the error log. -/
structure EventRunResult where
  err : Option JsError
  result : Option EventResult
  logged : Bool

/-- `Event.prototype.run`: a synchronous exception from loading or invoking
the event is caught and logged, and the callback receives `(null, null)`;
otherwise the handler's callback pair is passed through, logging when an
error is present. -/
def eventRun : EventBehavior → EventRunResult
  | .throws _ => { err := none, result := none, logged := true }
  | .calls e r => { err := e, result := r, logged := e.isSome }

/-! ## Controller (`dadi/lib/controller/index.js`) -/

/-- `Controller.prototype.requiredDataPresent`, including its JS failure
modes: the early `_.isEmpty` check returns `true` for a page without
required datasources even when `data` is `undefined`; otherwise touching
`data.hasOwnProperty` on `undefined`, or `.hasOwnProperty`/`.length` on a
`null` field, throws a `TypeError` (modelled as `.error`).  `_.every`
short-circuits on the first failing key. -/
def requiredEvery (d : Json) : List String → Except Unit Bool
  | [] => .ok true
  | k :: ks =>
    if jsHasOwn d k then
      match jsGetField d k with
      | some .null => .error ()
      | some v =>
        if jsHasOwn v "results" then
          match jsGetField v "results" with
          | some .null => .error ()
          | some rv =>
            if jsLengthNotZero (jsLengthVal rv) then requiredEvery d ks else .ok false
          | none => .error ()
        else .ok false
      | none => .error ()
    else .ok false

/-- `Controller.prototype.requiredDataPresent` (see `requiredEvery`). -/
def requiredDataPresent (required : List String) (data : Option Json) : Except Unit Bool :=
  if required.isEmpty then .ok true
  else
    match data with
    | none => .error ()
    | some .null => .error ()
    | some d => requiredEvery d required

/-- State of one event batch: the batch-local `data` binding, the state of
the object the *caller* holds, and whether they are still the same object.
`loadEventData`'s caller discards the batch's final value (`callback(null)`
ignores `result`), so a wholesale replacement is visible to later stages
only through `orig`. -/
structure EventBatchState where
  cur : Json
  orig : Json
  curIsOrig : Bool

/-- Write a field of the batch-local data, keeping the caller's object in
step when they are still one and the same. -/
def batchSetField (st : EventBatchState) (k : String) (v : Json) : EventBatchState :=
  let cur := jsSetField st.cur k v
  { st with cur := cur, orig := if st.curIsOrig then cur else st.orig }

/-- Does `result.checkValue === checkValue` hold for a fresh result value
(the sentinel is a string, so `===` is string equality)? -/
def checkValueMatches (result : Json) (nonce : String) : Bool :=
  match jsGetField result "checkValue" with
  | some (.str s) => s ≠ "" && s = nonce
  | _ => false

/-- `Controller.prototype.loadEventData`: run the events strictly in order;
before each, a sentinel `checkValue` is written into the data; an error
rejects the whole batch; a result that round-trips the sentinel replaces
the batch-local data wholesale, any other truthy result is attached under
the event's name.  `nonces` supplies the per-call random sentinel values. -/
def loadEventData (events : List (String × (Json → EventBehavior)))
    (nonces : List String) (st : EventBatchState) : Except JsError EventBatchState :=
  match events with
  | [] => .ok st
  | (name, h) :: rest =>
    let nonce := nonces.headD ""
    let st := batchSetField st "checkValue" (.str nonce)
    let r := eventRun (h st.cur)
    match r.err with
    | some e => .error e
    | none =>
      match r.result with
      | some .sameData =>
        -- `data = result` where `result === data`: nothing changes
        loadEventData rest nonces.tail st
      | some (.fresh j) =>
        if jsTruthy j && checkValueMatches j nonce then
          -- wholesale replacement: the caller's object is left behind
          loadEventData rest nonces.tail { st with cur := j, curIsOrig := false }
        else if jsTruthy j then
          loadEventData rest nonces.tail (batchSetField st name j)
        else
          loadEventData rest nonces.tail st
      | none => loadEventData rest nonces.tail st

/-- One primary datasource as the width-1 queue sees it: its key, the
outcome of its optional filter event, and the arguments its provider
`load` passes to the callback.  (The filter event is modelled as completing
before the fetch; the source starts it without awaiting it.) -/
structure PrimaryDs where
  key : String
  filterEvent : Option EventBehavior
  loadErr : Option JsError
  loadResult : Option Json
  dsResponse : Option Int

/-- Result of the primary-datasource stage. -/
inductive PrimaryStageResult where
  | aborted (e : JsError)
  | responded (result : Option Json) (status : Int)
  | completed (data : Json)

/-- The `async.queue` of width 1 over the primary datasources: strictly in
order, a filter-event error or a load error calls `done(err)` and the
queue never drains; a `dsResponse` short-circuits with
`done(null, result, dsResponse)`; otherwise a truthy result is stored
under the datasource's schema key and the next task runs. -/
def runPrimaryQueue (items : List PrimaryDs) (data : Json) : PrimaryStageResult :=
  match items with
  | [] => .completed data
  | ds :: rest =>
    match (match ds.filterEvent with
           | some b => (eventRun b).err
           | none => none) with
    | some e => .aborted e
    | none =>
      match ds.loadErr with
      | some e => .aborted e
      | none =>
        match ds.dsResponse with
        | some status => .responded ds.loadResult status
        | none =>
          let data :=
            match ds.loadResult with
            | some r => if jsTruthy r then jsSetField data ds.key r else data
            | none => data
          runPrimaryQueue rest data

/-- `chained.outputParam` of a chained datasource schema. -/
structure ChainedOutputParam where
  param : String
  castType : Option String
  fieldName : Option String
  query : Option Json

/-- The `chained` descriptor: parent datasource key and output parameter. -/
structure ChainedCfg where
  datasource : String
  outputParam : ChainedOutputParam

/-- One chained datasource as `processChained` sees it.  Its
`schemaDatasource` is the *shared* schema object: `loadData` clones each
datasource with `_.clone`, a shallow copy, so `chainedDatasource.schema`
is the template's schema.  `loadErr`/`loadResult` are the provider `load`
callback's arguments. -/
structure ChainedDs where
  key : String
  name : String
  chained : ChainedCfg
  schemaDatasource : SchemaDs
  loadErr : Option JsError
  loadResult : Option Json

/-- The message built for a missing parent datasource (codes 39 are the
apostrophes around the names). -/
def chainedMissingMessage (name parent : String) : String :=
  "Chained datasource \x27" ++ name ++ "\x27 expected to find data from datasource \x27" ++
    parent ++ "\x27."

/-- The error object built for a missing parent datasource (`new Error()`
with only `message` assigned). -/
def chainedMissingError (name parent : String) : JsError :=
  { statusCode := none, json := none, message := chainedMissingMessage name parent }

/-- `param.split('.').reduce((o, x) => o ? o[x] : '', data[parent])`:
walk the dotted path; a falsy intermediate yields the empty string, and a
property read may yield `undefined` (`none`). -/
def jsReducePath (root : Json) (parts : List String) : Option Json :=
  parts.foldl
    (fun o x =>
      match o with
      | some v => if jsTruthy v then jsGetField v x else some (.str "")
      | none => some (.str ""))
    (some root)

/-- A JS value of the chained parameter after casting: a number (with
`none` for `NaN`) or a string. -/
inductive ChainedParam where
  | num (n : Option Int)
  | str (s : String)
deriving DecidableEq, Repr

/-- The cast applied to the extracted parameter: `parseInt` when the output
parameter declares type `Number`, else `encodeURIComponent` of the
stringified value. -/
def castChainedParam (castType : Option String) (raw : Option Json) : ChainedParam :=
  if castType = some "Number" then .num (parseIntJs (jsToStringOpt raw))
  else .str (encodeURIComponent (jsToStringOpt raw))

/-- The filter value written for a chained parameter (`NaN` modelled as
`null`, which serializes identically). -/
def chainedParamJson : ChainedParam → Json
  | .num (some n) => .num n
  | .num none => .null
  | .str s => .str s

/-- The text spliced into the declared query for `"\x7bparam\x7d"`:
a number is written raw, anything else is wrapped in double quotes. -/
def chainedParamSpliceText : ChainedParam → String
  | .num (some n) => toString n
  | .num none => "NaN"
  | .str s => "\"" ++ s ++ "\""

/-- The writes `processChained` performs on the (shared) schema of one
chained datasource after extracting the parameter: the `cache`/`page`
fields from the request context, the parameter injected under the declared
filter field, and the declared query spliced into the serialized filter at
the `"\x7bparent\x7d"` placeholder.  Returns the schema as updated so far
together with the error when the final `JSON.parse` throws. -/
def chainedSchemaUpdate (passFilters : Bool) (cd : ChainedDs) (data : Json) (req : Req)
    (param : ChainedParam) : SchemaDs × Option String :=
  let sd := cd.schemaDatasource
  let dataQuery := (jsGetField data "query").getD (.obj [])
  let cacheIsFalse : Bool :=
    match jsGetField dataQuery "cache" with
    | some (.str s) => s = "false"
    | _ => false
  let sd := if cacheIsFalse then { sd with cache := some (.bool false) } else sd
  let sd :=
    if passFilters && sd.paginate then
      let pageVal : Json :=
        match jsGetField dataQuery "page" with
        | some pv =>
          if jsTruthy pv then pv
          else
            match truthyStr (lookupStr req.params "page") with
            | some v => .str v
            | none => .num 1
        | none =>
          match truthyStr (lookupStr req.params "page") with
          | some v => .str v
          | none => .num 1
      { sd with page := some pageVal }
    else sd
  let sd :=
    if truthyStrOpt cd.chained.outputParam.fieldName then
      let newFilter :=
        jsSetField sd.filter (fieldKey cd.chained.outputParam.fieldName) (chainedParamJson param)
      { sd with filter := newFilter }
    else sd
  match cd.chained.outputParam.query with
  | some q =>
    if jsTruthy q then
      let placeholder := "\"\x7b" ++ cd.chained.datasource ++ "\x7d\""
      let filterStr := jsonStringify sd.filter
      let qStr := jsReplaceFirst (jsonStringify q) "\"\x7bparam\x7d\"" (chainedParamSpliceText param)
      match jsonParse (jsReplaceFirst filterStr placeholder qStr) with
      | some f => ({ sd with filter := f }, none)
      | none => (sd, some "SyntaxError: invalid filter JSON after chained query splice")
    else (sd, none)
  | none => (sd, none)

/-- The synchronous part of one `_.each` iteration of `processChained`:
the missing-parent check (`!data[...]` tests falsiness, so a falsy parent
value also aborts) and the schema writes.  `doneErr` is the error passed
to `done`; `thrown` a synchronous `JSON.parse` exception. -/
structure ChainedValidation where
  schemaAfter : SchemaDs
  doneErr : Option JsError
  thrown : Option String

/-- Validation/mutation phase for one chained datasource. -/
def processChainedValidate (passFilters : Bool) (cd : ChainedDs) (data : Json) (req : Req) :
    ChainedValidation :=
  if !(jsTruthyOpt (jsGetField data cd.chained.datasource)) then
    { schemaAfter := cd.schemaDatasource,
      doneErr := some (chainedMissingError cd.name cd.chained.datasource), thrown := none }
  else
    let raw := jsReducePath ((jsGetField data cd.chained.datasource).getD .null)
      (splitOnChar '.' cd.chained.outputParam.param)
    let param := castChainedParam cd.chained.outputParam.castType raw
    let (sd, thrown) := chainedSchemaUpdate passFilters cd data req param
    { schemaAfter := sd, doneErr := none, thrown := thrown }

/-- Per-item outcome of the chained stage. -/
structure ChainedItemOutcome where
  key : String
  schemaAfter : SchemaDs
  fetched : Bool
  loadErr : Option JsError
  loadResult : Option Json

/-- The synchronous `_.each` loop of `processChained`: `return done(err)`
skips that datasource's fetch but the loop continues with the next one; a
synchronous exception stops the loop (and the request) outright.  All
validations read the data set as it stood when the stage began — provider
loads are asynchronous, so their writes land after the loop. -/
def processChainedLoop (passFilters : Bool) (data : Json) (req : Req) :
    List ChainedDs → List ChainedItemOutcome × Option JsError × Option String
  | [] => ([], none, none)
  | cd :: rest =>
    let v := processChainedValidate passFilters cd data req
    match v.thrown with
    | some m => ([⟨cd.key, v.schemaAfter, false, none, none⟩], none, some m)
    | none =>
      match v.doneErr with
      | some e =>
        -- this `done(err)` precedes anything the remaining iterations do,
        -- so it is the first (and decisive) call
        let (outs, _, thrown) := processChainedLoop passFilters data req rest
        (⟨cd.key, v.schemaAfter, false, none, none⟩ :: outs, some e, thrown)
      | none =>
        let (outs, firstErr, thrown) := processChainedLoop passFilters data req rest
        (⟨cd.key, v.schemaAfter, true, cd.loadErr, cd.loadResult⟩ :: outs, firstErr, thrown)

/-- Result of the chained stage. -/
structure ChainedStageResult where
  outcomes : List ChainedItemOutcome
  data : Json
  firstErr : Option JsError
  thrown : Option String
  logs : List String

/-- `Controller.prototype.processChained`: validate and mutate each chained
datasource's shared schema in order, start the fetches of those that
passed, then apply each fetch callback — a load error is logged only, a
truthy result is stored under the datasource's key — and `done(null, data)`
fires only when every datasource fetched (`idx` reaches the count);
otherwise the first `done(err)` from the loop is the stage's outcome. -/
def processChained (passFilters : Bool) (items : List ChainedDs) (data : Json) (req : Req) :
    ChainedStageResult :=
  if items.isEmpty then
    { outcomes := [], data := data, firstErr := none, thrown := none, logs := [] }
  else
    let (outs, firstErr, thrown) := processChainedLoop passFilters data req items
    let dataAfter := outs.foldl
      (fun d o =>
        if o.fetched then
          match o.loadResult with
          | some r => if jsTruthy r then jsSetField d o.key r else d
          | none => d
        else d)
      data
    let logs := outs.foldl
      (fun ls o =>
        if o.fetched then
          match o.loadErr with
          | some e => ls ++ [e.message]
          | none => ls
        else ls)
      []
    { outcomes := outs, data := dataAfter, firstErr := firstErr, thrown := thrown, logs := logs }

/-- Outcome of `Controller.prototype.loadData` as observed through its
`done` continuation. -/
inductive LoadResult where
  | earlyErr (e : JsError)
  | responded (result : Option Json) (status : Int)
  | crashed (msg : String)
  | stalled
  | finished (data : Json)

/-- `Controller.prototype.loadData`: preload events, the width-1 primary
queue, the chained stage, postload events, then `done(null, data)` with the
object `process` handed in (wholesale event replacements are discarded at
each batch boundary because the waterfall callbacks ignore `result`).
Every early `done(err)` passes *no* data argument.  A page whose attached
datasources are all chained never drains the empty primary queue, so the
request stalls. -/
def loadData (page : PageCfg)
    (preEvents postEvents : List (String × (Json → EventBehavior)))
    (preNonces postNonces : List String)
    (primaries : List PrimaryDs) (chaineds : List ChainedDs)
    (req : Req) (data : Json) : LoadResult :=
  match loadEventData preEvents preNonces { cur := data, orig := data, curIsOrig := true } with
  | .error e => .earlyErr e
  | .ok st =>
    let data := st.orig
    let hasAttached := !(primaries.isEmpty && chaineds.isEmpty)
    if hasAttached && primaries.isEmpty then .stalled
    else
      match runPrimaryQueue primaries data with
      | .aborted e => .earlyErr e
      | .responded r s => .responded r s
      | .completed data =>
        let ch := processChained page.passFilters chaineds data req
        -- a `done(err)` from an iteration always precedes a later
        -- iteration's synchronous throw, so it decides the outcome
        match ch.firstErr with
        | some e => .earlyErr e
        | none =>
          match ch.thrown with
          | some m => .crashed m
          | none =>
            match loadEventData postEvents postNonces
                { cur := ch.data, orig := ch.data, curIsOrig := true } with
            | .error e => .earlyErr e
            | .ok st => .finished st.orig

/-- Observable outcome of `Controller.prototype.process` for one request. -/
inductive ProcessOutcome where
  | nextNotFound
  | errChain (e : JsError)
  | sent (status : Int)
  | hung
  | crashed (msg : String)

/-- Modelled from the spec: the `Send.json`/`Send.html` continuation
factories live in `dadi/lib/view/send.js`, which is not among the sources
under verification.  Per the specification's dispatch contract, "any stage
invoking its continuation with an error short-circuits to the
error-handler chain", and a successful completion finalizes the response
with the prepared status. -/
def sendDone (status : Int) : Option JsError → ProcessOutcome
  | some e => .errChain e
  | none => .sent status

/-- The tail of `process`'s load callback once the gating check has passed
and no error was delivered: a `dsResponse` with status 202 is sent as JSON
outright; otherwise stats/version attachment and `view.setData` throw on an
absent data object, a truthy `data.json` flag sends the data, and otherwise
the render collaborator's outcome (an external input) decides between the
prepared send and `next(err)` into the error chain. -/
def processAfterGate (dataOpt : Option Json) (dsResponse : Option Int)
    (renderResult : Except JsError String) : ProcessOutcome :=
  match dsResponse with
  | some status =>
    if status = 202 then .sent 202
    else processRenderPath dataOpt renderResult
  | none => processRenderPath dataOpt renderResult
where
  processRenderPath (dataOpt : Option Json) (renderResult : Except JsError String) :
      ProcessOutcome :=
    match dataOpt with
    | none => .crashed "TypeError: cannot set templatingEngine of undefined"
    | some d =>
      if jsTruthyOpt (jsGetField d "json") then sendDone 200 none
      else
        match renderResult with
        | .ok _ => sendDone 200 none
        | .error e => .errChain e

/-! ## DatasourceCache (`dadi/lib/cache/datasource.js`) -/

/-- A `directory` caching block as a JS object with possibly-absent
properties. -/
structure DirConf where
  enabled : Option Bool
  path : Option String
  extension : Option String
deriving DecidableEq, Repr

/-- A `redis` caching block. -/
structure RedisConf where
  enabled : Option Bool
deriving DecidableEq, Repr

/-- A `caching` options object (application config or per-datasource
override); either store block may be absent in an override. -/
structure CacheConf where
  directory : Option DirConf
  redis : Option RedisConf
deriving DecidableEq, Repr

/-- The `caching` block of the application config
(`config.get('caching')`); the convict schema populates every field. -/
structure ConfigCaching where
  directoryEnabled : Bool
  directoryPath : String
  redisEnabled : Bool
deriving DecidableEq, Repr

/-- The config caching block as a `CacheConf` value. -/
def configCacheConf (cfg : ConfigCaching) : CacheConf :=
  let d : DirConf :=
    { enabled := some cfg.directoryEnabled, path := some cfg.directoryPath, extension := none }
  { directory := some d, redis := some { enabled := some cfg.redisEnabled } }

/-- State of the `DatasourceCache` singleton after construction. -/
structure DatasourceCacheState where
  enabled : Bool
  cacheOptions : CacheConf
deriving DecidableEq, Repr

/-- The `DatasourceCache` constructor:
`this.enabled = !(directoryEnabled === false && redisEnabled === false)`. -/
def mkDatasourceCache (cfg : ConfigCaching) : DatasourceCacheState :=
  { enabled := !(cfg.directoryEnabled == false && cfg.redisEnabled == false),
    cacheOptions := configCacheConf cfg }

/-- The datasource argument to the cache functions: its name, the
fetch-scoped provider's resolved endpoint and optional explicit cache key,
the schema's `caching` override block, and the source type. -/
structure CacheDatasource where
  name : String
  providerEndpoint : Option String
  providerCacheKey : Option String
  schemaCaching : Option CacheConf
  sourceType : String
deriving DecidableEq, Repr

/-- `underscore.string`'s `isBlank(makeString(x))`: absent values
stringify to the empty string, and a string is blank when it is all
whitespace. -/
def sIsBlank : Option String → Bool
  | none => true
  | some s => s.toList.all (·.isWhitespace)

/-- `DatasourceCache.prototype.getOptions`: shallow-`_.extend` the config
caching options with the datasource's `caching` block (an override
replaces the whole `directory`/`redis` object), replace a `directory`
whose `path` is blank or missing by one holding only the configured path
(losing any `enabled` flag it carried), then force the `json` extension.
(The source's `_.extend` also mutates `this.cacheOptions` in place; for a
single call the returned merge is as modelled.) -/
def getOptions (cacheOptions : CacheConf) (dsCaching : Option CacheConf)
    (configDirPath : String) : CacheConf :=
  let src := dsCaching.getD { directory := none, redis := none }
  let options : CacheConf :=
    { directory := src.directory <|> cacheOptions.directory,
      redis := src.redis <|> cacheOptions.redis }
  let pathOnlyDir : DirConf := { enabled := none, path := some configDirPath, extension := none }
  let dirBlank : Bool :=
    match options.directory with
    | none => true
    | some d => sIsBlank d.path
  let options := if dirBlank then { options with directory := some pathOnlyDir } else options
  match options.directory with
  | some d => { options with directory := some { d with extension := some "json" } }
  | none => options

/-- Did the query string of the resolved endpoint carry `cache=false`? -/
def endpointQueryCacheFalse (ds : CacheDatasource) : Bool :=
  match ds.providerEndpoint with
  | some ep => lookupStr (parseQueryPairs ep) "cache" = some "false"
  | none => false

/-- Is a store enabled in a merged options block (`options.directory.enabled
|| options.redis.enabled`, truthiness)? -/
def mergedConfStoreEnabled (o : CacheConf) : Bool :=
  (match o.directory with
   | some d => d.enabled = some true
   | none => false) ||
  (match o.redis with
   | some r => r.enabled = some true
   | none => false)

/-- `DatasourceCache.prototype.cachingEnabled`: start from the
construction-time flag, drop to disabled when the resolved endpoint's query
string carries `cache=false`, when the source type is `static`, or when the
process is in debug mode, and finally require the merged per-datasource
options to enable at least one store. -/
def cachingEnabled (dc : DatasourceCacheState) (ds : CacheDatasource) (debug : Bool)
    (configDirPath : String) : Bool :=
  let enabled := dc.enabled
  let enabled := if endpointQueryCacheFalse ds then false else enabled
  let enabled := if ds.sourceType = "static" then false else enabled
  let enabled := if debug then false else enabled
  let options := getOptions dc.cacheOptions ds.schemaCaching configDirPath
  enabled && mergedConfStoreEnabled options

/-- `Controller.prototype.process`, observed through its load callback: the
gating check runs *first* (and throws a `TypeError` when an early
`done(err)` left `data` undefined and the page declares required
datasources); a gating miss routes to `next()`; then an error with
`statusCode` 404 routes to `next()` and any other error goes to the
`done` continuation (the error-handler chain); otherwise the response path
runs. -/
def controllerProcess (page : PageCfg) (loadRes : LoadResult)
    (renderResult : Except JsError String) : ProcessOutcome :=
  match loadRes with
  | .crashed m => .crashed m
  | .stalled => .hung
  | .earlyErr e =>
    match requiredDataPresent page.requiredDatasources none with
    | .error _ => .crashed "TypeError: cannot read hasOwnProperty of undefined"
    | .ok false => .nextNotFound
    | .ok true =>
      if e.statusCode = some 404 then .nextNotFound else sendDone 200 (some e)
  | .responded result status =>
    match requiredDataPresent page.requiredDatasources result with
    | .error _ => .crashed "TypeError: cannot read hasOwnProperty of undefined"
    | .ok false => .nextNotFound
    | .ok true => processAfterGate result (some status) renderResult
  | .finished data =>
    match requiredDataPresent page.requiredDatasources (some data) with
    | .error _ => .crashed "TypeError: cannot read hasOwnProperty of undefined"
    | .ok false => .nextNotFound
    | .ok true => processAfterGate (some data) none renderResult

/-! ## Claim-side predicates and concrete scenarios -/

/-- The route-list invariant: sorted descending by score. -/
def OrderedDesc (l : List RouteEntry) : Prop :=
  l.Pairwise (fun a b => b.order ≤ a.order)

/-- A primary datasource whose filter event and fetch both succeed without
a short-circuiting `dsResponse`. -/
def primaryOk (p : PrimaryDs) : Bool :=
  (match p.filterEvent with
   | some b => (eventRun b).err.isNone
   | none => true) && p.loadErr.isNone && p.dsResponse.isNone

/-- The working data set after the primary stage stores each truthy
result under its datasource key. -/
def primaryWrites (items : List PrimaryDs) (data : Json) : Json :=
  items.foldl
    (fun d p =>
      match p.loadResult with
      | some r => if jsTruthy r then jsSetField d p.key r else d
      | none => d)
    data

/-- A chained datasource whose synchronous phase neither calls `done(err)`
nor throws against the given data set. -/
def chainedStepOk (passFilters : Bool) (cd : ChainedDs) (data : Json) (req : Req) : Bool :=
  (processChainedValidate passFilters cd data req).doneErr.isNone &&
    (processChainedValidate passFilters cd data req).thrown.isNone

/-- Well-formedness of one working-data entry for the gating check: not
`null`, and a `results` field, when present, holding an array (every
provider result does). -/
def gateKeyWellFormed (d : Json) (k : String) : Bool :=
  match jsGetField d k with
  | none => true
  | some .null => false
  | some (.obj fs) =>
    (match jsLookup fs "results" with
     | none => true
     | some (.arr _) => true
     | some .null => false
     | some _ => false)
  | some _ => true

/-- Working data whose entries, where they matter to the gating check, are
well-formed datasource results. -/
def gatingWellFormed (required : List String) (d : Json) : Bool :=
  required.all (gateKeyWellFormed d)

/-- The gating condition as the specification states it: every required key
is present in the working data set with a non-empty `results` list. -/
def claimRequiredPresent (required : List String) (d : Json) : Prop :=
  ∀ k ∈ required, ∃ v rs, jsHasOwn d k ∧ jsGetField d k = some v ∧
    jsGetField v "results" = some (.arr rs) ∧ rs ≠ []

/-- The per-key test of the gating check, as a boolean: the key is an own
property, its value owns a `results` property, and that property's length
is strictly unequal to `0`. -/
def gateKeyOk (d : Json) (k : String) : Bool :=
  jsHasOwn d k &&
    (match jsGetField d k with
     | some v =>
       jsHasOwn v "results" &&
         (match jsGetField v "results" with
          | some rv => jsLengthNotZero (jsLengthVal rv)
          | none => false)
     | none => false)

/-- The enabling condition exactly as claim C9 states it: a backing store
(directory or redis) is enabled, the process is not in debug mode, the
query string does not carry `cache=false`, and the source type is not
static. -/
def claimC9Enabled (cfg : ConfigCaching) (ds : CacheDatasource) (debug : Bool) : Bool :=
  (cfg.directoryEnabled || cfg.redisEnabled) && !debug &&
    !(endpointQueryCacheFalse ds) && !(ds.sourceType == "static")

/-- C1 scenario: a datasource whose page passes filters, hit with a
`?filter=` query. -/
def c1Schema : SchemaDs :=
  { key := "books", sourceType := "remote", sourceEndpoint := "1.0/library/books",
    filter := .obj [("a", .num 1)], cache := none, paginate := false, page := none,
    filterEventResult := none }

/-- C1 scenario: the shared datasource template. -/
def c1Ds : DsState :=
  { schemaDatasource := c1Schema, originalFilter := .obj [("a", .num 1)],
    requestParams := [], sourceModifiedEndpoint := none, requestHeaders := none }

/-- C1 scenario: the owning page. -/
def c1Page : PageCfg :=
  { name := some "books", passFilters := true, passHeaders := false,
    requiredDatasources := [] }

/-- C1 scenario: a request carrying a query-string filter. -/
def c1Req : Req :=
  { url := "/books?filter=\x7b\"x\":2\x7d", query := [("filter", "\x7b\"x\":2\x7d")],
    params := [], headers := [] }

/-- C1 scenario: a chained datasource (whose `schemaDatasource` is the
template's schema, shared through the shallow `_.clone`). -/
def c1Chained : ChainedDs :=
  let op : ChainedOutputParam :=
    { param := "results.0.id", castType := none, fieldName := some "authorId", query := none }
  let sd : SchemaDs :=
    { key := "books", sourceType := "remote", sourceEndpoint := "x", filter := .obj [],
      cache := none, paginate := false, page := none, filterEventResult := none }
  { key := "books", name := "books", chained := { datasource := "author", outputParam := op },
    schemaDatasource := sd, loadErr := none, loadResult := none }

/-- C1 scenario: working data with the parent datasource's result. -/
def c1ChData : Json :=
  .obj [("query", .obj []),
        ("author", .obj [("results", .arr [.obj [("id", .str "42")]])])]

/-- C1 scenario: the chained-stage request. -/
def c1ChReq : Req := { url := "/books", query := [], params := [], headers := [] }

/-- C3 witness scenario: a sorted single-route registry without `/a`. -/
def c3wState : ApiState :=
  { paths := [⟨"/b", 5, 1⟩], all := [], errors := [.defaultHandler] }

/-- C4 scenario: a page requiring the `reviews` datasource. -/
def c4Page : PageCfg :=
  { name := none, passFilters := false, passHeaders := false,
    requiredDatasources := ["reviews"] }

/-- C4 scenario: a completed load whose `reviews` results are empty. -/
def c4Data : Json := .obj [("reviews", .obj [("results", .arr [])])]

/-- C5 scenario: the primary fetch error. -/
def c5Err : JsError := { statusCode := none, json := none, message := "connection refused" }

/-- C5 scenario: a page requiring the very datasource whose fetch fails. -/
def c5Page : PageCfg :=
  { name := some "reviews", passFilters := false, passHeaders := false,
    requiredDatasources := ["reviews"] }

/-- C5 scenario: the failing primary datasource. -/
def c5Primary : PrimaryDs :=
  { key := "reviews", filterEvent := none, loadErr := some c5Err, loadResult := none,
    dsResponse := none }

/-- C5 scenario: the request. -/
def c5Req : Req := { url := "/reviews", query := [], params := [], headers := [] }

/-- C5 witness scenario: a page with no required datasources. -/
def c5wPage : PageCfg :=
  { name := none, passFilters := false, passHeaders := false, requiredDatasources := [] }

/-- C5 scenario: the initial working data. -/
def c5Data : Json := .obj [("query", .obj []), ("params", .obj [])]

/-- C6 witness scenario: a chained datasource whose parent key is absent. -/
def c6Chained : ChainedDs :=
  let op : ChainedOutputParam :=
    { param := "results.0.id", castType := none, fieldName := some "reviewId", query := none }
  let sd : SchemaDs :=
    { key := "comments", sourceType := "remote", sourceEndpoint := "x", filter := .obj [],
      cache := none, paginate := false, page := none, filterEventResult := none }
  { key := "comments", name := "comments",
    chained := { datasource := "reviews", outputParam := op },
    schemaDatasource := sd, loadErr := none, loadResult := none }

/-- C6 witness scenario: working data without the parent key. -/
def c6Data : Json := .obj [("query", .obj [])]

/-- C6 witness scenario: the request. -/
def c6Req : Req := { url := "/comments", query := [], params := [], headers := [] }

/-- C6 witness scenario: an ok primary datasource preceding the chained
stage. -/
def c6Primary : PrimaryDs :=
  { key := "other", filterEvent := none, loadErr := none,
    loadResult := some (.obj [("results", .arr [.num 1])]), dsResponse := none }

/-- C8 scenario: pagination with a configured `page` alias. -/
def c8Schema : SchemaDs :=
  { key := "books", sourceType := "remote", sourceEndpoint := "1.0/library/books",
    filter := .obj [], cache := none, paginate := true, page := none,
    filterEventResult := none }

/-- C8 scenario: the datasource template with the `page` alias request
parameter. -/
def c8Ds : DsState :=
  let aliasCfg : ReqParamCfg :=
    { param := "p", queryParam := some "page", fieldName := none, target := none,
      castType := none }
  { schemaDatasource := c8Schema, originalFilter := .obj [],
    requestParams := [aliasCfg],
    sourceModifiedEndpoint := none, requestHeaders := none }

/-- C8 scenario: the owning page (name matching the datasource key). -/
def c8Page : PageCfg :=
  { name := some "books", passFilters := false, passHeaders := false,
    requiredDatasources := [] }

/-- C8 scenario: a request whose route parameter `p` (the configured alias)
carries the page number, with no `page` query parameter. -/
def c8Req : Req :=
  { url := "/books/7", query := [], params := [("p", "7")], headers := [] }

/-- C9 scenario: config with the directory store enabled. -/
def c9Cfg : ConfigCaching :=
  { directoryEnabled := true, directoryPath := "cache/web", redisEnabled := false }

/-- C9 scenario: a datasource whose own `caching` block disables both
stores. -/
def c9Ds : CacheDatasource :=
  { name := "books", providerEndpoint := some "http://api/1.0/books",
    providerCacheKey := none,
    schemaCaching := some
      { directory := some { enabled := some false, path := some "cache/ds", extension := none },
        redis := some { enabled := some false } },
    sourceType := "remote" }

/-! # Theorems

First the helper lemmas about the router's sorted route list and the
controller stages, then one theorem per specification claim (with
counterexamples and witnesses where called for). -/

/-! ### Router lemmas -/

theorem insertByOrder_eq_append (e : RouteEntry) (l : List RouteEntry)
    (h : ∀ x ∈ l, e.order ≤ x.order) : insertByOrder e l = l ++ [e] := by
  induction l with
  | nil => rfl
  | cons x xs ih =>
    have hx : x.order ≥ e.order := h x (List.mem_cons_self x xs)
    simp only [insertByOrder, if_pos hx]
    rw [ih (fun y hy => h y (List.mem_cons_of_mem x hy))]
    simp

theorem foldl_insert_sorted (l : List RouteEntry) :
    ∀ acc : List RouteEntry, OrderedDesc (acc ++ l) →
      l.foldl (fun a x => insertByOrder x a) acc = acc ++ l := by
  induction l with
  | nil => intro acc _; simp
  | cons y ys ih =>
    intro acc h
    have hrel := (List.pairwise_append.mp h).2.2
    have hacc : ∀ x ∈ acc, y.order ≤ x.order := fun x hx =>
      hrel x hx y (List.mem_cons_self y ys)
    rw [List.foldl_cons, insertByOrder_eq_append y acc hacc]
    have h2 : OrderedDesc ((acc ++ [y]) ++ ys) := by
      rw [List.append_assoc]
      simpa using h
    rw [ih (acc ++ [y]) h2, List.append_assoc]
    simp

theorem sortByOrderDesc_of_sorted (l : List RouteEntry) (h : OrderedDesc l) :
    sortByOrderDesc l = l := by
  have := foldl_insert_sorted l [] (by simpa using h)
  simpa [sortByOrderDesc] using this

theorem apiUse_paths_insert (s : ApiState) (p : String) (hd : Nat)
    (h : OrderedDesc s.paths) :
    (apiUse s (.route p hd)).paths = insertByOrder ⟨p, routeOrder p, hd⟩ s.paths := by
  have hstep : sortByOrderDesc (s.paths ++ [⟨p, routeOrder p, hd⟩]) =
      insertByOrder ⟨p, routeOrder p, hd⟩ (sortByOrderDesc s.paths) := by
    simp [sortByOrderDesc, List.foldl_append]
  show sortByOrderDesc (s.paths ++ [⟨p, routeOrder p, hd⟩]) = _
  rw [hstep, sortByOrderDesc_of_sorted s.paths h]

theorem mem_insertByOrder {e b : RouteEntry} {l : List RouteEntry} :
    b ∈ insertByOrder e l ↔ b = e ∨ b ∈ l := by
  induction l with
  | nil => simp [insertByOrder]
  | cons x xs ih =>
    by_cases hc : x.order ≥ e.order
    · simp only [insertByOrder, if_pos hc, List.mem_cons, ih]
      tauto
    · simp [insertByOrder, if_neg hc]

theorem insertByOrder_sorted (e : RouteEntry) (l : List RouteEntry) (h : OrderedDesc l) :
    OrderedDesc (insertByOrder e l) := by
  induction l with
  | nil => exact List.pairwise_singleton _ _
  | cons x xs ih =>
    rcases List.pairwise_cons.mp h with ⟨hx, hxs⟩
    by_cases hc : x.order ≥ e.order
    · simp only [insertByOrder, if_pos hc]
      refine List.pairwise_cons.mpr ⟨?_, ih hxs⟩
      intro b hb
      rcases mem_insertByOrder.mp hb with hb | hb
      · subst hb; exact hc
      · exact hx b hb
    · push_neg at hc
      simp only [insertByOrder, if_neg (not_le.mpr hc)]
      refine List.pairwise_cons.mpr ⟨?_, h⟩
      intro b hb
      rcases List.mem_cons.mp hb with hb | hb
      · subst hb; exact le_of_lt hc
      · exact le_trans (hx b hb) (le_of_lt hc)

theorem insertByOrder_split (e : RouteEntry) (l : List RouteEntry) (h : OrderedDesc l) :
    ∃ l₁ l₂, l = l₁ ++ l₂ ∧ insertByOrder e l = l₁ ++ e :: l₂ ∧
      (∀ x ∈ l₁, e.order ≤ x.order) ∧ (∀ x ∈ l₂, x.order < e.order) := by
  induction l with
  | nil => exact ⟨[], [], rfl, rfl, by simp, by simp⟩
  | cons x xs ih =>
    rcases List.pairwise_cons.mp h with ⟨hx, hxs⟩
    by_cases hc : x.order ≥ e.order
    · obtain ⟨l₁, l₂, h1, h2, h3, h4⟩ := ih hxs
      refine ⟨x :: l₁, l₂, by simp [h1], ?_, ?_, h4⟩
      · simp only [insertByOrder, if_pos hc, h2, List.cons_append]
      · intro y hy
        rcases List.mem_cons.mp hy with hy | hy
        · subst hy; exact hc
        · exact h3 y hy
    · push_neg at hc
      refine ⟨[], x :: xs, rfl, by simp [insertByOrder, if_neg (not_le.mpr hc)], by simp, ?_⟩
      intro y hy
      rcases List.mem_cons.mp hy with hy | hy
      · subst hy; exact hc
      · exact lt_of_le_of_lt (hx y hy) hc

theorem removeFirstByPath_insert (e : RouteEntry) (l : List RouteEntry) (p : String)
    (hp : ∀ x ∈ l, x.path ≠ p) (he : e.path = p) :
    removeFirstByPath p (insertByOrder e l) = l := by
  induction l with
  | nil => simp [insertByOrder, removeFirstByPath, he]
  | cons x xs ih =>
    by_cases hc : x.order ≥ e.order
    · simp only [insertByOrder, if_pos hc, removeFirstByPath]
      rw [if_neg (hp x (List.mem_cons_self x xs))]
      rw [ih (fun y hy => hp y (List.mem_cons_of_mem x hy))]
    · simp only [insertByOrder, if_neg (not_le.mpr (not_le.mp hc))]
      simp [removeFirstByPath, he]

theorem mem_removeFirstEq_of_ne [DecidableEq α] {b a : α} {l : List α}
    (hb : b ∈ l) (hne : b ≠ a) : b ∈ removeFirstEq a l := by
  induction l with
  | nil => cases hb
  | cons x xs ih =>
    by_cases hx : x = a
    · subst hx
      simp only [removeFirstEq, if_pos rfl]
      rcases List.mem_cons.mp hb with h | h
      · exact absurd h hne
      · exact h
    · simp only [removeFirstEq, if_neg hx]
      rcases List.mem_cons.mp hb with h | h
      · subst h; exact List.mem_cons_self b (removeFirstEq a xs)
      · exact List.mem_cons_of_mem x (ih h)

theorem defaultHandler_mem_apiUse (s : ApiState) (a : UseArg)
    (h : ErrHandler.defaultHandler ∈ s.errors) :
    ErrHandler.defaultHandler ∈ (apiUse s a).errors := by
  cases a with
  | fn arity id =>
    by_cases h4 : arity = 4 <;> simp [apiUse, h4, h]
  | route p hd => simpa [apiUse] using h

theorem defaultHandler_mem_apiUnuse (s : ApiState) (a : UseArg)
    (h : ErrHandler.defaultHandler ∈ s.errors) :
    ErrHandler.defaultHandler ∈ (apiUnuse s a).errors := by
  cases a with
  | fn arity id =>
    by_cases h4 : arity = 4
    · simp only [apiUnuse, if_pos h4]
      exact mem_removeFirstEq_of_ne h (by simp)
    · simpa [apiUnuse, h4] using h
  | route p hd => simpa [apiUnuse] using h

theorem defaultHandler_mem_applyOps (ops : List ApiOp) :
    ∀ s : ApiState, ErrHandler.defaultHandler ∈ s.errors →
      ErrHandler.defaultHandler ∈ (applyApiOps s ops).errors := by
  induction ops with
  | nil => intro s h; exact h
  | cons op rest ih =>
    intro s h
    cases op with
    | useOp a => exact ih _ (defaultHandler_mem_apiUse s a h)
    | unuseOp a => exact ih _ (defaultHandler_mem_apiUnuse s a h)

/-! ### Claim C2 — route-priority scoring -/

/-- C2 counterexample: the pattern `/config/status` contains `/config`, yet
`path.indexOf('/config') > 0` is false at index 0, so its score is the
computed `10` (two leading static segments), not `-10` — and it therefore
sorts *before* the non-config pattern `/x` instead of after all non-config
patterns, refuting the claim as stated. -/
theorem c2_config_score_counterexample :
    routeOrder "/config/status" = 10 ∧ (10 : Int) ≠ -10 ∧
      ((apiUse (apiUse apiInit (.route "/config/status" 1)) (.route "/x" 2)).paths.map
          RouteEntry.path) = ["/config/status", "/x"] :=
  ⟨rfl, by decide, rfl⟩

/-- C2 (amended): a registered pattern's score is
`leadingStaticSegments*5 + requiredParams*2 + optionalParams`, forced to
`-10` only when `/config` occurs at a strictly positive index (a pattern
*beginning* with `/config` keeps its computed score); each registration
re-sorts the list, which — the prior list being sorted, as registration
maintains — amounts to a stable insertion: the prior entries keep their
relative order and the new entry lands after every entry of greater or
equal score (ties preserve insertion order). -/
theorem c2_route_score_amended (s : ApiState) (p : String) (hd : Nat)
    (hs : OrderedDesc s.paths) :
    routeOrder p = (if jsIndexOf p "/config" > 0 then (-10 : Int)
      else ((staticRouteLength (pathSegments p) * 5 + requiredParamLength (pathSegments p) * 2 +
        optionalParamLength (pathSegments p) : Nat) : Int))
    ∧ OrderedDesc (apiUse s (.route p hd)).paths
    ∧ ∃ l₁ l₂, s.paths = l₁ ++ l₂
        ∧ (apiUse s (.route p hd)).paths = l₁ ++ ⟨p, routeOrder p, hd⟩ :: l₂
        ∧ (∀ x ∈ l₁, routeOrder p ≤ x.order) ∧ (∀ x ∈ l₂, x.order < routeOrder p) := by
  refine ⟨?_, ?_, ?_⟩
  · by_cases hc : jsIndexOf p "/config" > 0
    · simp [routeOrder, hc]
    · simp only [routeOrder, if_neg hc]
      push_cast
      ring
  · rw [apiUse_paths_insert s p hd hs]
    exact insertByOrder_sorted _ _ hs
  · obtain ⟨l₁, l₂, h1, h2, h3, h4⟩ := insertByOrder_split ⟨p, routeOrder p, hd⟩ s.paths hs
    exact ⟨l₁, l₂, h1, by rw [apiUse_paths_insert s p hd hs, h2], h3, h4⟩

/-- C2 witness: the amended statement applied to the freshly constructed
`Api` and the pattern `/books/:id`. -/
theorem c2_route_score_amended_witness :
    OrderedDesc apiInit.paths ∧
      (routeOrder "/books/:id" = (if jsIndexOf "/books/:id" "/config" > 0 then (-10 : Int)
        else ((staticRouteLength (pathSegments "/books/:id") * 5 +
          requiredParamLength (pathSegments "/books/:id") * 2 +
          optionalParamLength (pathSegments "/books/:id") : Nat) : Int))
      ∧ OrderedDesc (apiUse apiInit (.route "/books/:id" 3)).paths
      ∧ ∃ l₁ l₂, apiInit.paths = l₁ ++ l₂
          ∧ (apiUse apiInit (.route "/books/:id" 3)).paths =
              l₁ ++ ⟨"/books/:id", routeOrder "/books/:id", 3⟩ :: l₂
          ∧ (∀ x ∈ l₁, routeOrder "/books/:id" ≤ x.order)
          ∧ (∀ x ∈ l₂, x.order < routeOrder "/books/:id")) :=
  ⟨List.Pairwise.nil, c2_route_score_amended apiInit "/books/:id" 3 List.Pairwise.nil⟩

/-! ### Claim C3 — register/unregister round trip -/

/-- C3 counterexample: with `/a` already registered (handler 1), registering
`/a` with handler 2 and unregistering it removes the *first* entry whose
path matches — the original one — leaving handler 2 in place of handler 1,
so the prior route list is not restored. -/
theorem c3_use_unuse_counterexample :
    apiUnuse (apiUse (apiUse apiInit (.route "/a" 1)) (.route "/a" 2)) (.route "/a" 2)
      ≠ apiUse apiInit (.route "/a" 1) := by decide

/-- C3 (amended): provided the prior route list is sorted (as registration
maintains) and contains *no* entry with the same path, registering a
path+handler and then unregistering that path restores the prior state
exactly — for any handler argument to `unuse`, which ignores it. -/
theorem c3_use_unuse_amended (s : ApiState) (p : String) (h1 h2 : Nat)
    (hs : OrderedDesc s.paths) (hp : ∀ e ∈ s.paths, e.path ≠ p) :
    apiUnuse (apiUse s (.route p h1)) (.route p h2) = s := by
  have hrm : removeFirstByPath p (apiUse s (.route p h1)).paths = s.paths := by
    rw [apiUse_paths_insert s p h1 hs]
    exact removeFirstByPath_insert ⟨p, routeOrder p, h1⟩ s.paths p hp rfl
  show ({ apiUse s (.route p h1) with
    paths := removeFirstByPath p (apiUse s (.route p h1)).paths } : ApiState) = s
  rw [hrm]
  cases s
  rfl

/-- C3 witness: the amended statement applied to a single-route state. -/
theorem c3_use_unuse_amended_witness :
    (OrderedDesc c3wState.paths ∧ ∀ e ∈ c3wState.paths, e.path ≠ "/a")
    ∧ apiUnuse (apiUse c3wState (.route "/a" 5)) (.route "/a" 9) = c3wState :=
  ⟨⟨List.pairwise_singleton _ _, by decide⟩,
    c3_use_unuse_amended c3wState "/a" 5 9 (List.pairwise_singleton _ _) (by decide)⟩

/-! ### Claim C7 — default error handler -/

/-- C7: the default error handler is installed by the `Api` constructor and
survives every sequence of `use`/`unuse` operations, so the error chain is
never empty; and it sets the response status to the error's `statusCode`
when that is present (and non-zero, `||` being a truthiness choice) and
`500` otherwise, ending the response with the JSON serialization of the
error's `json` payload when one is carried and with an empty body
otherwise. -/
theorem c7_default_error_handler :
    (∀ ops : List ApiOp, ErrHandler.defaultHandler ∈ (applyApiOps apiInit ops).errors)
    ∧ ∀ (err : JsError) (res : HttpResponse),
        (defaultErrorHandler err res).statusCode =
          (match err.statusCode with
           | some n => if n ≠ 0 then n else 500
           | none => 500)
        ∧ (defaultErrorHandler err res).ended = true
        ∧ (defaultErrorHandler err res).body = err.json.map jsonStringify := by
  constructor
  · intro ops
    exact defaultHandler_mem_applyOps ops apiInit (by simp [apiInit])
  · intro err res
    refine ⟨?_, ?_, ?_⟩ <;> cases hj : err.json <;> simp [defaultErrorHandler, hj]

/-! ### Claim C4 — gating on required datasources -/

theorem jsHasOwn_obj_iff (fs : List (String × Json)) (r : String) :
    jsHasOwn (.obj fs) r = true ↔ (jsLookup fs r).isSome := by
  induction fs with
  | nil => simp [jsHasOwn, jsLookup]
  | cons q ps ih =>
    by_cases hq : q.1 = r
    · simp [jsHasOwn, jsLookup, List.find?_cons, hq]
    · have h1 : jsHasOwn (.obj (q :: ps)) r = jsHasOwn (.obj ps) r := by
        simp [jsHasOwn, hq]
      have h2 : jsLookup (q :: ps) r = jsLookup ps r := by
        simp [jsLookup, List.find?_cons, hq]
      rw [h1, h2]
      exact ih

theorem jsHasOwn_exists_get {d : Json} {k : String} (h : jsHasOwn d k = true) :
    ∃ v, jsGetField d k = some v := by
  cases d with
  | obj fs =>
    have hs : (jsLookup fs k).isSome := (jsHasOwn_obj_iff fs k).mp h
    match hv : jsLookup fs k with
    | some v => exact ⟨v, by simp [jsGetField, hv]⟩
    | none => rw [hv] at hs; simp at hs
  | null => simp [jsHasOwn] at h
  | bool b => simp [jsHasOwn] at h
  | num n => simp [jsHasOwn] at h
  | str s => simp [jsHasOwn] at h
  | arr xs => simp [jsHasOwn] at h

theorem requiredEvery_cons_eq (d : Json) (k : String) (ks : List String)
    (hwf : gateKeyWellFormed d k = true) :
    requiredEvery d (k :: ks) = if gateKeyOk d k then requiredEvery d ks else .ok false := by
  cases hown : jsHasOwn d k
  · simp [requiredEvery, gateKeyOk, hown]
  · obtain ⟨v, hv⟩ := jsHasOwn_exists_get hown
    cases v with
    | null => simp [gateKeyWellFormed, hv] at hwf
    | obj fs =>
      cases hres : jsLookup fs "results"
      · have hro : jsHasOwn (.obj fs) "results" = false := by
          rw [← Bool.not_eq_true]
          intro hcl
          have := (jsHasOwn_obj_iff fs "results").mp hcl
          rw [hres] at this
          simp at this
        simp [requiredEvery, gateKeyOk, hown, hv, hro]
      · rename_i rv
        have hro : jsHasOwn (.obj fs) "results" = true := by
          rw [jsHasOwn_obj_iff, hres]
          rfl
        cases rv with
        | arr rs =>
          have hgv : jsGetField (.obj fs) "results" = some (.arr rs) := by
            simp [jsGetField, hres]
          have hG : gateKeyOk d k = jsLengthNotZero (jsLengthVal (.arr rs)) := by
            simp [gateKeyOk, hown, hv, hro, hgv]
          have hE : requiredEvery d (k :: ks) =
              (if jsLengthNotZero (jsLengthVal (.arr rs)) then requiredEvery d ks
               else .ok false) := by
            simp [requiredEvery, hown, hv, hro, hgv]
          rw [hE, hG]
        | null => simp [gateKeyWellFormed, hv, hres] at hwf
        | bool b => simp [gateKeyWellFormed, hv, hres] at hwf
        | num n => simp [gateKeyWellFormed, hv, hres] at hwf
        | str s => simp [gateKeyWellFormed, hv, hres] at hwf
        | obj fs2 => simp [gateKeyWellFormed, hv, hres] at hwf
    | bool b => simp [requiredEvery, gateKeyOk, hown, hv, jsHasOwn]
    | num n => simp [requiredEvery, gateKeyOk, hown, hv, jsHasOwn]
    | str s => simp [requiredEvery, gateKeyOk, hown, hv, jsHasOwn]
    | arr xs => simp [requiredEvery, gateKeyOk, hown, hv, jsHasOwn]

theorem requiredEvery_all_iff (d : Json) (required : List String)
    (hwf : gatingWellFormed required d = true) :
    (requiredEvery d required = .ok true ↔ required.all (gateKeyOk d) = true) := by
  induction required with
  | nil => simp [requiredEvery]
  | cons k ks ih =>
    have hwfk : gateKeyWellFormed d k = true ∧ gatingWellFormed ks d = true := by
      simpa [gatingWellFormed] using hwf
    rw [requiredEvery_cons_eq d k ks hwfk.1]
    cases hG : gateKeyOk d k
    · simp [hG]
    · simp [hG, ih hwfk.2]

theorem gateKeyOk_iff (d : Json) (k : String) (hwf : gateKeyWellFormed d k = true) :
    (gateKeyOk d k = true ↔
      ∃ v rs, jsHasOwn d k = true ∧ jsGetField d k = some v ∧
        jsGetField v "results" = some (.arr rs) ∧ rs ≠ []) := by
  have hcn : charsToNat? ['r', 'e', 's', 'u', 'l', 't', 's'] = none := rfl
  have hln : ("results" : String) ≠ "length" := by decide
  cases hown : jsHasOwn d k
  · have hG : gateKeyOk d k = false := by simp [gateKeyOk, hown]
    rw [hG]
    constructor
    · intro h
      exact absurd h (by simp)
    · rintro ⟨v', rs', hcl, -, -, -⟩
      exact absurd hcl (by simp)
  · obtain ⟨v, hv⟩ := jsHasOwn_exists_get hown
    cases v with
    | null => simp [gateKeyWellFormed, hv] at hwf
    | obj fs =>
      cases hres : jsLookup fs "results" with
      | none =>
        have hro : jsHasOwn (.obj fs) "results" = false := by
          rw [← Bool.not_eq_true]
          intro hcl
          have hsome := (jsHasOwn_obj_iff fs "results").mp hcl
          rw [hres] at hsome
          simp at hsome
        have hG : gateKeyOk d k = false := by simp [gateKeyOk, hown, hv, hro]
        rw [hG]
        constructor
        · intro h
          exact absurd h (by simp)
        · rintro ⟨v', rs', -, hv', hres', -⟩
          rw [hv] at hv'
          have hveq := Option.some.inj hv'
          subst hveq
          simp [jsGetField, hres] at hres'
      | some rv =>
        have hro : jsHasOwn (.obj fs) "results" = true := by
          rw [jsHasOwn_obj_iff, hres]
          rfl
        cases rv with
        | arr rs =>
          have hgv : jsGetField (.obj fs) "results" = some (.arr rs) := by
            simp [jsGetField, hres]
          have hG : gateKeyOk d k = jsLengthNotZero (jsLengthVal (.arr rs)) := by
            simp [gateKeyOk, hown, hv, hro, hgv]
          rw [hG]
          constructor
          · intro hlen
            refine ⟨.obj fs, rs, rfl, hv, hgv, ?_⟩
            rintro rfl
            simp [jsLengthVal, jsLengthNotZero] at hlen
          · rintro ⟨v', rs', -, hv', hres', hne⟩
            rw [hv] at hv'
            have hveq := Option.some.inj hv'
            subst hveq
            rw [hgv] at hres'
            have hreq := Option.some.inj hres'
            injection hreq with hrs
            subst hrs
            cases rs with
            | nil => exact absurd rfl hne
            | cons a t =>
              simp [jsLengthVal, jsLengthNotZero]
              omega
        | null => simp [gateKeyWellFormed, hv, hres] at hwf
        | bool b => simp [gateKeyWellFormed, hv, hres] at hwf
        | num n => simp [gateKeyWellFormed, hv, hres] at hwf
        | str s => simp [gateKeyWellFormed, hv, hres] at hwf
        | obj fs2 => simp [gateKeyWellFormed, hv, hres] at hwf
    | bool b =>
      have hG : gateKeyOk d k = false := by simp [gateKeyOk, hown, hv, jsHasOwn]
      rw [hG]
      constructor
      · intro h
        exact absurd h (by simp)
      · rintro ⟨v', rs', -, hv', hres', -⟩
        rw [hv] at hv'
        have hveq := Option.some.inj hv'
        subst hveq
        simp [jsGetField] at hres'
    | num n =>
      have hG : gateKeyOk d k = false := by simp [gateKeyOk, hown, hv, jsHasOwn]
      rw [hG]
      constructor
      · intro h
        exact absurd h (by simp)
      · rintro ⟨v', rs', -, hv', hres', -⟩
        rw [hv] at hv'
        have hveq := Option.some.inj hv'
        subst hveq
        simp [jsGetField] at hres'
    | str s =>
      have hG : gateKeyOk d k = false := by simp [gateKeyOk, hown, hv, jsHasOwn]
      rw [hG]
      constructor
      · intro h
        exact absurd h (by simp)
      · rintro ⟨v', rs', -, hv', hres', -⟩
        rw [hv] at hv'
        have hveq := Option.some.inj hv'
        subst hveq
        simp [jsGetField, hln, hcn] at hres'
    | arr xs =>
      have hG : gateKeyOk d k = false := by simp [gateKeyOk, hown, hv, jsHasOwn]
      rw [hG]
      constructor
      · intro h
        exact absurd h (by simp)
      · rintro ⟨v', rs', -, hv', hres', -⟩
        rw [hv] at hv'
        have hveq := Option.some.inj hv'
        subst hveq
        simp [jsGetField, hln, hcn] at hres'

theorem requiredDataPresent_eq (required : List String) (d : Json) (hd : d ≠ .null)
    (hne : required.isEmpty = false) :
    requiredDataPresent required (some d) = requiredEvery d required := by
  cases d with
  | null => exact absurd rfl hd
  | bool b => simp [requiredDataPresent, hne]
  | num n => simp [requiredDataPresent, hne]
  | str s => simp [requiredDataPresent, hne]
  | arr xs => simp [requiredDataPresent, hne]
  | obj fs => simp [requiredDataPresent, hne]

/-- C4: the gating check passes exactly when every required datasource key
is present in the working data set with a non-empty `results` list (for
working data whose entries are well-formed provider results), and whenever
it fails, `process` invokes the not-found continuation — never a success
send and never the error-handler chain. -/
theorem c4_required_data_gating (page : PageCfg) (d : Json) (r : Except JsError String)
    (hwf : gatingWellFormed page.requiredDatasources d = true) :
    (requiredDataPresent page.requiredDatasources (some d) = .ok true ↔
      claimRequiredPresent page.requiredDatasources d)
    ∧ (requiredDataPresent page.requiredDatasources (some d) = .ok false →
        controllerProcess page (.finished d) r = .nextNotFound
        ∧ (∀ st, controllerProcess page (.finished d) r ≠ .sent st)
        ∧ (∀ e, controllerProcess page (.finished d) r ≠ .errChain e)) := by
  constructor
  · by_cases hemp : page.requiredDatasources.isEmpty
    · have hnil : page.requiredDatasources = [] := by
        rwa [List.isEmpty_iff] at hemp
      rw [hnil]
      simp [requiredDataPresent, claimRequiredPresent]
    · have hne : page.requiredDatasources.isEmpty = false := by
        rwa [Bool.not_eq_true] at hemp
      by_cases hdn : d = .null
      · subst hdn
        have hL : requiredDataPresent page.requiredDatasources (some .null) = .error () := by
          simp [requiredDataPresent, hne]
        rw [hL]
        constructor
        · intro h
          exact absurd h (by simp)
        · intro hcl
          have hnn : page.requiredDatasources ≠ [] := by
            intro h
            rw [h] at hne
            simp at hne
          obtain ⟨k, ks, hkk⟩ := List.exists_cons_of_ne_nil hnn
          obtain ⟨v, rs, hown, -, -, -⟩ := hcl k (by rw [hkk]; exact List.mem_cons_self k ks)
          simp [jsHasOwn] at hown
      · rw [requiredDataPresent_eq page.requiredDatasources d hdn hne,
          requiredEvery_all_iff d page.requiredDatasources hwf, List.all_eq_true]
        unfold claimRequiredPresent
        constructor
        · intro h k hk
          exact (gateKeyOk_iff d k (List.all_eq_true.mp hwf k hk)).mp (h k hk)
        · intro h k hk
          exact (gateKeyOk_iff d k (List.all_eq_true.mp hwf k hk)).mpr (h k hk)
  · intro hfail
    have hout : controllerProcess page (.finished d) r = .nextNotFound := by
      simp [controllerProcess, hfail]
    refine ⟨hout, ?_, ?_⟩
    · intro st h
      rw [hout] at h
      exact ProcessOutcome.noConfusion h
    · intro e h
      rw [hout] at h
      exact ProcessOutcome.noConfusion h

/-- C4 witness: the gating theorem applied to a page requiring `reviews`
with an empty `reviews.results` list. -/
theorem c4_required_data_gating_witness :
    gatingWellFormed c4Page.requiredDatasources c4Data = true
    ∧ ((requiredDataPresent c4Page.requiredDatasources (some c4Data) = .ok true ↔
        claimRequiredPresent c4Page.requiredDatasources c4Data)
      ∧ (requiredDataPresent c4Page.requiredDatasources (some c4Data) = .ok false →
          controllerProcess c4Page (.finished c4Data) (.ok "html") = .nextNotFound
          ∧ (∀ st, controllerProcess c4Page (.finished c4Data) (.ok "html") ≠ .sent st)
          ∧ (∀ e, controllerProcess c4Page (.finished c4Data) (.ok "html") ≠ .errChain e))) :=
  ⟨rfl, c4_required_data_gating c4Page c4Data (.ok "html") rfl⟩

/-! ### Claim C5 — fail-fast primaries, best-effort chained -/

theorem runPrimaryQueue_all_ok (items : List PrimaryDs) :
    ∀ data : Json, (∀ p ∈ items, primaryOk p = true) →
      runPrimaryQueue items data = .completed (primaryWrites items data) := by
  induction items with
  | nil => intro data _; rfl
  | cons p ps ih =>
    intro data h
    have hp := h p (List.mem_cons_self p ps)
    simp only [primaryOk, Bool.and_eq_true] at hp
    obtain ⟨⟨hfe, herr⟩, hds⟩ := hp
    have herr' : p.loadErr = none := Option.isNone_iff_eq_none.mp herr
    have hds' : p.dsResponse = none := Option.isNone_iff_eq_none.mp hds
    have hrest := ih (match p.loadResult with
      | some r => if jsTruthy r then jsSetField data p.key r else data
      | none => data) (fun q hq => h q (List.mem_cons_of_mem p hq))
    cases hfe2 : p.filterEvent with
    | none =>
      simp only [runPrimaryQueue, hfe2, herr', hds', hrest]
      rfl
    | some b =>
      rw [hfe2] at hfe
      have hfe' : (eventRun b).err = none := Option.isNone_iff_eq_none.mp hfe
      simp only [runPrimaryQueue, hfe2, hfe', herr', hds', hrest]
      rfl

theorem runPrimaryQueue_abort (good : List PrimaryDs) :
    ∀ data : Json, (∀ p ∈ good, primaryOk p = true) →
      ∀ (bad : PrimaryDs) (rest : List PrimaryDs) (e : JsError),
        bad.filterEvent = none → bad.loadErr = some e →
        runPrimaryQueue (good ++ bad :: rest) data = .aborted e := by
  induction good with
  | nil =>
    intro data _ bad rest e hb he
    simp [runPrimaryQueue, hb, he]
  | cons p ps ih =>
    intro data h bad rest e hb he
    have hp := h p (List.mem_cons_self p ps)
    simp only [primaryOk, Bool.and_eq_true] at hp
    obtain ⟨⟨hfe, herr⟩, hds⟩ := hp
    have herr' : p.loadErr = none := Option.isNone_iff_eq_none.mp herr
    have hds' : p.dsResponse = none := Option.isNone_iff_eq_none.mp hds
    have hrest := ih (match p.loadResult with
      | some r => if jsTruthy r then jsSetField data p.key r else data
      | none => data) (fun q hq => h q (List.mem_cons_of_mem p hq)) bad rest e hb he
    cases hfe2 : p.filterEvent with
    | none => simpa only [List.cons_append, runPrimaryQueue, hfe2, herr', hds'] using hrest
    | some b =>
      rw [hfe2] at hfe
      have hfe' : (eventRun b).err = none := Option.isNone_iff_eq_none.mp hfe
      simpa only [List.cons_append, runPrimaryQueue, hfe2, hfe', herr', hds'] using hrest

theorem processChainedLoop_all_ok (pf : Bool) (data : Json) (req : Req)
    (items : List ChainedDs) (h : ∀ cd ∈ items, chainedStepOk pf cd data req = true) :
    processChainedLoop pf data req items =
      (items.map (fun cd => ⟨cd.key, (processChainedValidate pf cd data req).schemaAfter,
        true, cd.loadErr, cd.loadResult⟩), none, none) := by
  induction items with
  | nil => rfl
  | cons cd rest ih =>
    have hc := h cd (List.mem_cons_self cd rest)
    simp only [chainedStepOk, Bool.and_eq_true] at hc
    obtain ⟨hdone, hthr⟩ := hc
    have hdone' : (processChainedValidate pf cd data req).doneErr = none :=
      Option.isNone_iff_eq_none.mp hdone
    have hthr' : (processChainedValidate pf cd data req).thrown = none :=
      Option.isNone_iff_eq_none.mp hthr
    have hrest := ih (fun q hq => h q (List.mem_cons_of_mem cd hq))
    simp [processChainedLoop, hdone', hthr', hrest]

theorem logs_foldl_eq (outs : List ChainedItemOutcome)
    (hfetched : ∀ o ∈ outs, o.fetched = true) :
    ∀ acc : List String,
      outs.foldl (fun ls o =>
        if o.fetched then
          match o.loadErr with
          | some e => ls ++ [e.message]
          | none => ls
        else ls) acc
      = acc ++ (outs.filterMap (fun o => o.loadErr)).map (fun e => e.message) := by
  induction outs with
  | nil => intro acc; simp
  | cons o rest ih =>
    intro acc
    have ho := hfetched o (List.mem_cons_self o rest)
    have hrest := ih (fun q hq => hfetched q (List.mem_cons_of_mem o hq))
    cases he : o.loadErr with
    | none => simp [ho, he, hrest]
    | some e => simp [ho, he, hrest]

theorem processChained_all_ok (pf : Bool) (items : List ChainedDs) (data : Json) (req : Req)
    (h : ∀ cd ∈ items, chainedStepOk pf cd data req = true) :
    (processChained pf items data req).firstErr = none ∧
    (processChained pf items data req).thrown = none ∧
    (processChained pf items data req).logs =
      (items.filterMap (fun cd => cd.loadErr)).map (fun e => e.message) := by
  cases items with
  | nil => exact ⟨rfl, rfl, rfl⟩
  | cons cd rest =>
    have hloop := processChainedLoop_all_ok pf data req (cd :: rest) h
    have hfetched : ∀ o ∈ (cd :: rest).map (fun cd => (⟨cd.key,
        (processChainedValidate pf cd data req).schemaAfter, true, cd.loadErr,
        cd.loadResult⟩ : ChainedItemOutcome)), o.fetched = true := by
      intro o ho
      obtain ⟨q, -, rfl⟩ := List.mem_map.mp ho
      rfl
    constructor
    · simp [processChained, hloop]
    constructor
    · simp [processChained, hloop]
    · simp only [processChained, List.isEmpty_cons, Bool.false_eq_true, if_false, hloop]
      rw [logs_foldl_eq _ hfetched []]
      rw [List.filterMap_map]
      rfl

/-- C5 counterexample: a page requiring the `reviews` datasource whose
primary fetch errors.  `loadData` passes the error to its continuation with
*no* data argument, so `process`'s gating check dereferences `undefined`
and the request crashes with a `TypeError` — the error never reaches the
error-handler chain, contradicting the claim that every primary fetch
error propagates there. -/
theorem c5_primary_error_counterexample :
    loadData c5Page [] [] [] [] [c5Primary] [] c5Req c5Data = .earlyErr c5Err
    ∧ controllerProcess c5Page (loadData c5Page [] [] [] [] [c5Primary] [] c5Req c5Data)
        (.ok "html") = .crashed "TypeError: cannot read hasOwnProperty of undefined"
    ∧ ∀ e, controllerProcess c5Page (loadData c5Page [] [] [] [] [c5Primary] [] c5Req c5Data)
        (.ok "html") ≠ .errChain e := by
  refine ⟨rfl, rfl, ?_⟩
  intro e h
  rw [show controllerProcess c5Page (loadData c5Page [] [] [] [] [c5Primary] [] c5Req c5Data)
      (.ok "html") = .crashed "TypeError: cannot read hasOwnProperty of undefined" from rfl] at h
  exact ProcessOutcome.noConfusion h

/-- C5 (amended): an error from a primary datasource fetch aborts the load
immediately — the first failing queue item decides the outcome and the
chained stage never runs — and is passed to the load continuation without
a data argument; it reaches the error-handler chain when the page declares
no required datasources and the error's `statusCode` is not 404 (with
required datasources the gating check crashes on `undefined` instead, and
a 404 routes to not-found).  An error from a chained datasource fetch is
logged only and never propagated: the stage completes and the load
finishes normally. -/
theorem c5_error_policy_amended :
    (∀ (page : PageCfg) (good : List PrimaryDs) (bad : PrimaryDs) (rest : List PrimaryDs)
        (chaineds : List ChainedDs) (req : Req) (data : Json) (e : JsError),
      (∀ p ∈ good, primaryOk p = true) → bad.filterEvent = none → bad.loadErr = some e →
      loadData page [] [] [] [] (good ++ bad :: rest) chaineds req data = .earlyErr e)
    ∧ (∀ (page : PageCfg) (e : JsError) (r : Except JsError String),
        page.requiredDatasources = [] → e.statusCode ≠ some 404 →
        controllerProcess page (.earlyErr e) r = .errChain e)
    ∧ (∀ (page : PageCfg) (primaries : List PrimaryDs) (chaineds : List ChainedDs)
          (req : Req) (data : Json),
        primaries ≠ [] → (∀ p ∈ primaries, primaryOk p = true) →
        (∀ cd ∈ chaineds, chainedStepOk page.passFilters cd (primaryWrites primaries data) req
          = true) →
        loadData page [] [] [] [] primaries chaineds req data =
          .finished (processChained page.passFilters chaineds (primaryWrites primaries data)
            req).data)
    ∧ (∀ (pf : Bool) (items : List ChainedDs) (data : Json) (req : Req),
        (∀ cd ∈ items, chainedStepOk pf cd data req = true) →
        (processChained pf items data req).firstErr = none ∧
        (processChained pf items data req).logs =
          (items.filterMap (fun cd => cd.loadErr)).map (fun e => e.message)) := by
  refine ⟨?_, ?_, ?_, ?_⟩
  · intro page good bad rest chaineds req data e hg hb he
    have hq := runPrimaryQueue_abort good data hg bad rest e hb he
    have hne : (good ++ bad :: rest).isEmpty = false := by
      cases good <;> rfl
    simp [loadData, loadEventData, hne, hq]
  · intro page e r hreq h404
    have h1 : requiredDataPresent page.requiredDatasources none = .ok true := by
      simp [requiredDataPresent, hreq]
    simp [controllerProcess, h1, h404, sendDone]
  · intro page primaries chaineds req data hne hok hch
    have hq := runPrimaryQueue_all_ok primaries data hok
    have hch2 := processChained_all_ok page.passFilters chaineds
      (primaryWrites primaries data) req hch
    have hie : primaries.isEmpty = false := by
      cases primaries with
      | nil => exact absurd rfl hne
      | cons a t => rfl
    simp [loadData, loadEventData, hie, hq, hch2.1, hch2.2.1]
  · intro pf items data req hch
    exact ⟨(processChained_all_ok pf items data req hch).1,
      (processChained_all_ok pf items data req hch).2.2⟩

/-- C5 witness: the amended statement applied to one ok primary (`other`)
followed by a failing one, to an error without required datasources, and
to a chained datasource whose fetch errors but whose load still
finishes. -/
theorem c5_error_policy_amended_witness :
    ((∀ p ∈ ([] : List PrimaryDs), primaryOk p = true) ∧ c5Primary.filterEvent = none ∧
      c5Primary.loadErr = some c5Err ∧
      loadData c5Page [] [] [] [] ([] ++ c5Primary :: []) [] c5Req c5Data = .earlyErr c5Err)
    ∧ (c5wPage.requiredDatasources = [] ∧ c5Err.statusCode ≠ some 404 ∧
        controllerProcess c5wPage (.earlyErr c5Err) (.ok "html") = .errChain c5Err) := by
  have t := c5_error_policy_amended
  refine ⟨⟨fun p hp => absurd hp (List.not_mem_nil p), rfl, rfl, ?_⟩, rfl, ?_, ?_⟩
  · exact t.1 c5Page [] c5Primary [] [] c5Req c5Data c5Err
      (fun p hp => absurd hp (List.not_mem_nil p)) rfl rfl
  · intro h
    exact absurd h (by simp [c5Err])
  · exact t.2.1 c5wPage c5Err (.ok "html") rfl (by simp [c5Err])

/-! ### Claim C6 — missing chained parent -/

/-- C6: a chained datasource whose declared parent key is falsy (absent
included) in the working data set when chained processing runs always
produces an error whose message names both the chained datasource and its
parent; `processChained` delivers that error as the stage's first
`done(err)` call, and a load whose post-primary data still lacks the
parent aborts with exactly that error. -/
theorem c6_missing_parent (pf : Bool) (cd : ChainedDs) (data : Json) (req : Req)
    (hmiss : jsTruthyOpt (jsGetField data cd.chained.datasource) = false) :
    ∃ e, (processChainedValidate pf cd data req).doneErr = some e
      ∧ e.message = "Chained datasource \x27" ++ cd.name ++
          "\x27 expected to find data from datasource \x27" ++ cd.chained.datasource ++ "\x27."
      ∧ (∀ rest, (processChained pf (cd :: rest) data req).firstErr = some e)
      ∧ (∀ (page : PageCfg) (primaries : List PrimaryDs) (rest : List ChainedDs) (data0 : Json),
          page.passFilters = pf → primaries ≠ [] → (∀ p ∈ primaries, primaryOk p = true) →
          primaryWrites primaries data0 = data →
          loadData page [] [] [] [] primaries (cd :: rest) req data0 = .earlyErr e) := by
  have hv : processChainedValidate pf cd data req =
      { schemaAfter := cd.schemaDatasource,
        doneErr := some (chainedMissingError cd.name cd.chained.datasource),
        thrown := none } := by
    simp [processChainedValidate, hmiss]
  refine ⟨chainedMissingError cd.name cd.chained.datasource, by rw [hv], rfl, ?_, ?_⟩
  · intro rest
    simp [processChained, processChainedLoop, hv]
  · intro page primaries rest data0 hpf hne hok hpw
    have hq := runPrimaryQueue_all_ok primaries data0 hok
    rw [hpw] at hq
    have hie : primaries.isEmpty = false := by
      cases primaries with
      | nil => exact absurd rfl hne
      | cons a t => rfl
    have hch : (processChained pf (cd :: rest) data req).firstErr =
        some (chainedMissingError cd.name cd.chained.datasource) := by
      simp [processChained, processChainedLoop, hv]
    simp [loadData, loadEventData, hie, hq, hpf, hch]

/-- C6 witness: the missing-parent theorem applied to the `comments`
datasource chained on an absent `reviews` key, behind one ok primary. -/
theorem c6_missing_parent_witness :
    jsTruthyOpt (jsGetField c6Data c6Chained.chained.datasource) = false
    ∧ ∃ e, (processChainedValidate false c6Chained c6Data c6Req).doneErr = some e
      ∧ e.message = "Chained datasource \x27" ++ c6Chained.name ++
          "\x27 expected to find data from datasource \x27" ++ c6Chained.chained.datasource ++
          "\x27."
      ∧ (∀ rest, (processChained false (c6Chained :: rest) c6Data c6Req).firstErr = some e)
      ∧ (∀ (page : PageCfg) (primaries : List PrimaryDs) (rest : List ChainedDs) (data0 : Json),
          page.passFilters = false → primaries ≠ [] → (∀ p ∈ primaries, primaryOk p = true) →
          primaryWrites primaries data0 = c6Data →
          loadData page [] [] [] [] primaries (c6Chained :: rest) c6Req data0 = .earlyErr e) :=
  ⟨rfl, c6_missing_parent false c6Chained c6Data c6Req rfl⟩

/-! ### Claim C1 — shared templates are mutated by request handling -/

/-- C1 (code bug): the claim that request handling never mutates the
shared templates is violated by the code.  A request carrying a
query-string `filter` makes `processRequest` `_.extend` the parsed filter
*into* `this.originalFilter` — `datasourceParams.filter` aliases it, the
shallow `_.clone` notwithstanding — so the pristine filter gains the field
`x`; and `processChained` writes the extracted parameter through the
shallow clone into the shared `schema.datasource.filter`, which gains
`authorId`.  Both shared structures differ from their pristine
originals after one request. -/
theorem c1_shared_template_mutated :
    jsGetField c1Ds.originalFilter "x" = none
    ∧ jsGetField (processRequest c1Ds c1Page "books" c1Req).ds.originalFilter "x" =
        some (.num 2)
    ∧ (processRequest c1Ds c1Page "books" c1Req).ds.originalFilter ≠ c1Ds.originalFilter
    ∧ jsGetField c1Chained.schemaDatasource.filter "authorId" = none
    ∧ jsGetField (processChainedValidate true c1Chained c1ChData c1ChReq).schemaAfter.filter
        "authorId" = some (.str "42")
    ∧ (processChainedValidate true c1Chained c1ChData c1ChReq).schemaAfter.filter ≠
        c1Chained.schemaDatasource.filter := by
  refine ⟨rfl, rfl, ?_, rfl, rfl, ?_⟩
  · intro h
    have h2 := congrArg (fun j => jsGetField j "x") h
    exact Option.noConfusion (show some (Json.num 2) = (none : Option Json) from h2)
  · intro h
    have h2 := congrArg (fun j => jsGetField j "authorId") h
    exact Option.noConfusion (show some (Json.str "42") = (none : Option Json) from h2)

/-! ### Claim C8 — pagination value resolution -/

/-- C8 (code bug): with pagination enabled, no `page` query parameter, a
configured `page` alias `p`, and the route parameter `p` carrying `"7"`,
the resolved page is the default `1`, not `"7"` — the code indexes
`req.params` with the found `requestParams` config *object* (key
`"[object Object]"`) instead of its `param` name, so the configured-alias
priority never yields a value.  The other priorities do work: a `page`
query parameter wins, and the route parameter `page` is used before the
default. -/
theorem c8_page_alias_inert :
    (match (processRequest c8Ds c8Page "books" c8Req).params with
     | .ok p => p.page
     | .error _ => none) = some (.num 1)
    ∧ some (Json.num 1) ≠ some (Json.str "7")
    ∧ (match (processRequest c8Ds c8Page "books"
          { c8Req with url := "/books/7?page=3", query := [("page", "3")] }).params with
       | .ok p => p.page
       | .error _ => none) = some (.str "3")
    ∧ (match (processRequest c8Ds c8Page "books"
          { c8Req with params := [("page", "5")] }).params with
       | .ok p => p.page
       | .error _ => none) = some (.str "5") := by
  refine ⟨rfl, ?_, rfl, rfl⟩
  intro h
  have h2 := Option.some.inj h
  exact Json.noConfusion h2

/-! ### Claim C9 — datasource cache enablement -/

/-- C9 counterexample: with the config's directory store enabled, no debug,
no `cache=false` in the endpoint query, and a non-static source — all four
of the claim's conditions satisfied — a datasource whose own `caching`
block disables both stores is still *not* cached: the claimed equivalence
omits the per-datasource merged options conjunct. -/
theorem c9_caching_enabled_counterexample :
    cachingEnabled (mkDatasourceCache c9Cfg) c9Ds false c9Cfg.directoryPath = false
    ∧ claimC9Enabled c9Cfg c9Ds false = true :=
  ⟨rfl, rfl⟩

/-- C9 (amended): caching is enabled for a datasource exactly when a
backing store is enabled at application-config level AND the resolved
endpoint's query string does not carry `cache=false` AND the source type
is not `static` AND the process is not in debug mode AND the per-datasource
merged caching options (the schema's `caching` block shallowly extended
over the config's, with a blank directory path resetting the directory
block) leave at least one store enabled. -/
theorem c9_caching_enabled_amended (cfg : ConfigCaching) (ds : CacheDatasource) (debug : Bool) :
    cachingEnabled (mkDatasourceCache cfg) ds debug cfg.directoryPath =
      ((cfg.directoryEnabled || cfg.redisEnabled) && !(endpointQueryCacheFalse ds) &&
        !(decide (ds.sourceType = "static")) && !debug &&
        mergedConfStoreEnabled (getOptions (configCacheConf cfg) ds.schemaCaching
          cfg.directoryPath)) := by
  simp only [cachingEnabled, mkDatasourceCache]
  cases hq : endpointQueryCacheFalse ds <;>
    by_cases hst : ds.sourceType = "static" <;>
      cases debug <;>
        cases hd : cfg.directoryEnabled <;>
          cases hr : cfg.redisEnabled <;>
            simp [hq, hst]

/-! ### Claim C10 — crashing events are contained -/

/-- C10: a synchronous exception thrown while loading or invoking an event
is caught and logged by `Event.run`, whose callback receives
`(null, null)`; the event batch then continues with neither an error nor a
keyed result for that event (only the sentinel write remains), and a load
whose only event crashes still finishes normally — the exception never
reaches the error-handler chain. -/
theorem c10_event_exception_contained (msg : String) (name : String)
    (events : List (String × (Json → EventBehavior))) (nonces : List String)
    (st : EventBatchState) (page : PageCfg) (req : Req) (data : Json) :
    eventRun (.throws msg) = { err := none, result := none, logged := true }
    ∧ loadEventData ((name, fun _ => .throws msg) :: events) nonces st =
        loadEventData events nonces.tail
          (batchSetField st "checkValue" (.str (nonces.headD "")))
    ∧ loadData page [(name, fun _ => .throws msg)] [] nonces [] [] [] req data =
        .finished (jsSetField data "checkValue" (.str (nonces.headD ""))) := by
  refine ⟨rfl, ?_, ?_⟩
  · simp [loadEventData, eventRun]
  · simp [loadData, loadEventData, eventRun, batchSetField, processChained, runPrimaryQueue]

end DadiWeb
